import Mathlib

/-!
Verification development for the RN-FERIAS vacation-provision system.

The definitions below are a shallow embedding of the Python sources
`provisao/utils.py`, `provisao/views.py` and `provisao/models.py`.
Conventions used throughout:

* Python `str` values are Lean `String`s and are manipulated through
  their underlying `List Char` (`String.data`), so that all functions
  are structurally recursive and kernel-reducible.
* Python `datetime.date` is the record `DataCivil` (year/month/day as
  integers); `date + timedelta(days=n)` is `addDays`, implemented with
  the standard proleptic-Gregorian civil-from-days / days-from-civil
  conversion (the same arithmetic CPython's `datetime` performs).
* Python `Decimal` values are modelled by `ℚ` (exact rational values).
  `Decimal(s)` for finite decimal literals is `decLit s`; the special
  values NaN/Infinity accepted by Python are outside the grammar used
  by this program's data and are not modelled.
* Django ORM tables are Lean lists of records; `get_or_create` is
  "update first match, else append", which is its observable behaviour
  under the schema's unique constraints.
-/

attribute [local semireducible] Rat.mul Rat.inv Rat.add Rat.sub

/-- Models Python `str.strip()` on the whitespace characters used by the
ERP export (space, tab, CR, LF). -/
def aparaLista (l : List Char) : List Char :=
  ((l.dropWhile Char.isWhitespace).reverse.dropWhile Char.isWhitespace).reverse

/-- Models Python `str.strip()` at the `String` level. -/
def pyStrip (s : String) : String :=
  String.mk (aparaLista s.data)

/-- Models Python `str.upper()` (ASCII letters; the header marker searched
for is pure ASCII). -/
def pyUpper (s : String) : String :=
  String.mk (s.data.map Char.toUpper)

/-- Models `str.replace(',', '.')` from `parse_decimal` / `excel_serial_para_data`. -/
def virgulaParaPonto (s : String) : String :=
  String.mk (s.data.map (fun c => if c = ',' then '.' else c))

/-- Does `l` start with `pat`?  (Helper for substring search.) -/
def listaComeca : List Char → List Char → Bool
  | [], _ => true
  | _ :: _, [] => false
  | p :: ps, c :: cs => p = c && listaComeca ps cs

/-- Models Python's `pat in s` substring test. -/
def listaContem (pat : List Char) : List Char → Bool
  | [] => pat.isEmpty
  | c :: cs => listaComeca pat (c :: cs) || listaContem pat cs

/-- Models Python `str.isdigit()` for ASCII digit strings (nonempty, all digits). -/
def ehDigitos (l : List Char) : Bool :=
  !l.isEmpty && l.all Char.isDigit

/-- Numeric value of a list of ASCII digits. -/
def valorDigitos (l : List Char) : ℕ :=
  l.foldl (fun a c => a * 10 + (c.toNat - 48)) 0

/-- Split a character list on a separator, keeping empty fields
(models `str.split(sep)` for a single-character separator). -/
def separaLista (sep : Char) : List Char → List (List Char)
  | [] => [[]]
  | c :: cs =>
    let r := separaLista sep cs
    if c = sep then [] :: r
    else match r with
      | [] => [[c]]
      | h :: t => (c :: h) :: t

/-- Optional leading sign of a numeric literal: returns the sign and the rest. -/
def separaSinal : List Char → ℤ × List Char
  | '+' :: t => (1, t)
  | '-' :: t => (-1, t)
  | t => (1, t)

/-- Split a literal at the first `e`/`E` into mantissa and optional exponent part. -/
def separaExpoente : List Char → List Char × Option (List Char)
  | [] => ([], none)
  | c :: cs =>
    if c = 'e' ∨ c = 'E' then ([], some cs)
    else
      let r := separaExpoente cs
      (c :: r.1, r.2)

/-- Unsigned mantissa of a decimal literal: digits with at most one dot and
at least one digit.  Returns the digit value (dot removed) and the number of
fractional digits. -/
def mantissaDecimal (l : List Char) : Option (ℕ × ℕ) :=
  match separaLista '.' l with
  | [ip] => if ehDigitos ip then some (valorDigitos ip, 0) else none
  | [ip, fp] =>
    if (ip.all Char.isDigit && fp.all Char.isDigit) && (!ip.isEmpty || !fp.isEmpty) then
      some (valorDigitos ip * 10 ^ fp.length + valorDigitos fp, fp.length)
    else none
  | _ => none

/-- Models `Decimal(s)` (equivalently `float(s)` at value level) on finite
decimal literals: optional sign, digits with an optional dot, optional
exponent.  Returns `none` where Python raises `InvalidOperation`/`ValueError`.
NaN/Infinity literals are outside this program's data and are not modelled;
binary rounding of `float` is immaterial on the integer serials that reach it. -/
def decLit (s : String) : Option ℚ :=
  let (sg, l) := separaSinal s.data
  let (man, exp?) := separaExpoente l
  match mantissaDecimal man with
  | none => none
  | some (m, fl) =>
    match exp? with
    | none => some ((sg * m : ℤ) / ((10 : ℚ) ^ fl))
    | some ec =>
      let (esg, ed) := separaSinal ec
      if ehDigitos ed then
        some (((sg * m : ℤ) : ℚ) * (10 : ℚ) ^ (esg * (valorDigitos ed : ℤ) - (fl : ℤ)))
      else none

/-- Embedding of `parse_decimal` (utils.py): strip, turn comma into dot,
parse; empty or invalid input yields `Decimal('0')`.  Total by construction
(the `except InvalidOperation` arm is the `getD 0`). -/
def parse_decimal (valor : String) : ℚ :=
  if valor = "" ∨ pyStrip valor = "" then 0
  else ((decLit (virgulaParaPonto (pyStrip valor))).getD 0)

/-- Claim C8: `parse_decimal` never raises: it strips surrounding whitespace,
replaces commas with dots and returns the parsed decimal value; every empty
or invalid input yields zero.  (Totality is by construction; the three
conjuncts cover empty, invalid and valid inputs.) -/
theorem c8_parse_decimal_total (s : String) :
    (pyStrip s = "" → parse_decimal s = 0) ∧
    (decLit (virgulaParaPonto (pyStrip s)) = none → parse_decimal s = 0) ∧
    (∀ q : ℚ, decLit (virgulaParaPonto (pyStrip s)) = some q → parse_decimal s = q) := by
  refine ⟨fun h => ?_, fun h => ?_, fun q h => ?_⟩
  · simp [parse_decimal, h]
  · by_cases he : s = "" ∨ pyStrip s = ""
    · simp [parse_decimal, he]
    · simp [parse_decimal, he, h]
  · have he : ¬ (s = "" ∨ pyStrip s = "") := by
      rintro (rfl | hs)
      · rw [show decLit (virgulaParaPonto (pyStrip "")) = none from by decide] at h
        simp at h
      · rw [hs] at h
        rw [show decLit (virgulaParaPonto "") = none from by decide] at h
        simp at h
    simp [parse_decimal, he, h]

/-- Witness for C8 at concrete inputs: `" 1,5 "` parses to `3/2`. -/
theorem c8_parse_decimal_total_witness :
    parse_decimal " 1,5 " = (3 : ℚ) / 2 := by
  have h := (c8_parse_decimal_total " 1,5 ").2.2 ((3 : ℚ) / 2)
  exact h (by decide)

/-- Proleptic Gregorian calendar date (models Python `datetime.date`). -/
structure DataCivil where
  ano : ℤ
  mes : ℤ
  dia : ℤ
deriving DecidableEq

/-- Days since 1970-01-01 of a civil date (standard civil-calendar
conversion; the arithmetic CPython's `datetime` ordinal is based on). -/
def diasDesdeCivil (dt : DataCivil) : ℤ :=
  let y := if dt.mes ≤ 2 then dt.ano - 1 else dt.ano
  let era := y.fdiv 400
  let yoe := y - era * 400
  let mp := if 2 < dt.mes then dt.mes - 3 else dt.mes + 9
  let doy := (153 * mp + 2).fdiv 5 + dt.dia - 1
  let doe := yoe * 365 + yoe.fdiv 4 - yoe.fdiv 100 + doy
  era * 146097 + doe - 719468

/-- Civil date from days since 1970-01-01 (inverse conversion). -/
def civilDesdeDias (z : ℤ) : DataCivil :=
  let z' := z + 719468
  let era := z'.fdiv 146097
  let doe := z' - era * 146097
  let yoe := (doe - doe.fdiv 1460 + doe.fdiv 36524 - doe.fdiv 146096).fdiv 365
  let y := yoe + era * 400
  let doy := doe - (365 * yoe + yoe.fdiv 4 - yoe.fdiv 100)
  let mp := (5 * doy + 2).fdiv 153
  let d := doy - (153 * mp + 2).fdiv 5 + 1
  let m := if mp < 10 then mp + 3 else mp - 9
  ⟨if m ≤ 2 then y + 1 else y, m, d⟩

/-- Models Python `date + timedelta(days = n)`. -/
def adicionaDias (dt : DataCivil) (n : ℤ) : DataCivil :=
  civilDesdeDias (diasDesdeCivil dt + n)

/-- Gregorian leap-year test. -/
def ehBissexto (y : ℤ) : Bool :=
  y % 4 = 0 && (y % 100 ≠ 0 || y % 400 = 0)

/-- Number of days of month `m` in year `y`. -/
def diasNoMes (y m : ℤ) : ℤ :=
  if m = 2 then (if ehBissexto y then 29 else 28)
  else if m = 4 ∨ m = 6 ∨ m = 9 ∨ m = 11 then 30 else 31

/-- A `datetime.date(y, m, d)` construction: `some` only for a valid
calendar date in Python's supported year range, else `none`
(models the `ValueError` raised by `datetime.strptime`). -/
def dataValida (y m d : ℤ) : Option DataCivil :=
  if 1 ≤ y ∧ y ≤ 9999 ∧ 1 ≤ m ∧ m ≤ 12 ∧ 1 ≤ d ∧ d ≤ diasNoMes y m then
    some ⟨y, m, d⟩
  else none

/-- A `%d`/`%m` field of `strptime`: one or two digits. -/
def campoDia (l : List Char) : Bool :=
  ehDigitos l && decide (l.length ≤ 2)

/-- A `%Y` field of `strptime`: exactly four digits. -/
def campoAno (l : List Char) : Bool :=
  ehDigitos l && decide (l.length = 4)

/-- `datetime.strptime(v, '%d/%m/%Y')` resp. `'%d-%m-%Y'` (day, month, year
separated by `sep`), returning `none` where Python raises `ValueError`. -/
def strptimeDMA (sep : Char) (v : List Char) : Option DataCivil :=
  match separaLista sep v with
  | [ds, ms, ys] =>
    if campoDia ds && campoDia ms && campoAno ys then
      dataValida (valorDigitos ys) (valorDigitos ms) (valorDigitos ds)
    else none
  | _ => none

/-- `datetime.strptime(v, '%Y-%m-%d')`. -/
def strptimeAMD (v : List Char) : Option DataCivil :=
  match separaLista '-' v with
  | [ys, ms, ds] =>
    if campoAno ys && campoDia ms && campoDia ds then
      dataValida (valorDigitos ys) (valorDigitos ms) (valorDigitos ds)
    else none
  | _ => none

/-- `int(q)` in Python: truncation toward zero. -/
def truncaInteiro (q : ℚ) : ℤ :=
  if 0 ≤ q then ⌊q⌋ else ⌈q⌉

/-- Embedding of `excel_serial_para_data` (utils.py):
`date(1899, 12, 30) + timedelta(days=int(float(str(serial).replace(',', '.'))))`,
with `none` where Python raises `ValueError`/`TypeError`. -/
def excel_serial_para_data (serial : String) : Option DataCivil :=
  match decLit (virgulaParaPonto serial) with
  | none => none
  | some q => some (adicionaDias ⟨1899, 12, 30⟩ (truncaInteiro q))

/-- Embedding of `parse_data` (utils.py): empty or `'0'` gives absent; a
5-digit string is an Excel serial; otherwise the three `strptime` formats
are tried in order; unparseable gives absent. -/
def parse_data (valor : String) : Option DataCivil :=
  if valor = "" ∨ pyStrip valor = "" ∨ pyStrip valor = "0" then none
  else
    let v := pyStrip valor
    if ehDigitos v.data ∧ v.data.length = 5 then excel_serial_para_data v
    else
      match strptimeDMA '/' v.data with
      | some d => some d
      | none =>
        match strptimeAMD v.data with
        | some d => some d
        | none =>
          match strptimeDMA '-' v.data with
          | some d => some d
          | none => none

theorem string_eta (s : String) : String.mk s.data = s := by
  cases s
  rfl

theorem digito_nao_branco {c : Char} (h : c.isDigit = true) :
    c.isWhitespace = false := by
  have hs : ¬ c = ' ' := by rintro rfl; exact absurd h (by decide)
  have ht : ¬ c = '\t' := by rintro rfl; exact absurd h (by decide)
  have hr : ¬ c = '\r' := by rintro rfl; exact absurd h (by decide)
  have hn : ¬ c = '\n' := by rintro rfl; exact absurd h (by decide)
  simp [Char.isWhitespace, hs, ht, hr, hn]

theorem dropWhile_id_de_falso {p : Char → Bool} {l : List Char}
    (h : ∀ c ∈ l, p c = false) : l.dropWhile p = l := by
  cases l with
  | nil => rfl
  | cons a t =>
    rw [List.dropWhile_cons]
    simp [h a (List.mem_cons_self a t)]

theorem apara_id_de_digitos {l : List Char} (h : ∀ c ∈ l, c.isDigit = true) :
    aparaLista l = l := by
  unfold aparaLista
  rw [dropWhile_id_de_falso (fun c hc => digito_nao_branco (h c hc))]
  rw [dropWhile_id_de_falso (fun c hc =>
    digito_nao_branco (h c (List.mem_reverse.mp hc)))]
  exact List.reverse_reverse l

theorem map_id_de_pontos {f : Char → Char} {l : List Char}
    (h : ∀ c ∈ l, f c = c) : l.map f = l := by
  induction l with
  | nil => rfl
  | cons a t ih =>
    simp only [List.map_cons, h a (List.mem_cons_self a t)]
    rw [ih (fun c hc => h c (List.mem_cons_of_mem a hc))]

theorem separaExpoente_id {l : List Char}
    (h : ∀ c ∈ l, ¬(c = 'e' ∨ c = 'E')) : separaExpoente l = (l, none) := by
  induction l with
  | nil => rfl
  | cons a t ih =>
    unfold separaExpoente
    rw [if_neg (h a (List.mem_cons_self a t))]
    rw [ih (fun c hc => h c (List.mem_cons_of_mem a hc))]

theorem separaLista_id {sep : Char} {l : List Char}
    (h : ∀ c ∈ l, ¬ c = sep) : separaLista sep l = [l] := by
  induction l with
  | nil => rfl
  | cons a t ih =>
    unfold separaLista
    rw [if_neg (h a (List.mem_cons_self a t))]
    rw [ih (fun c hc => h c (List.mem_cons_of_mem a hc))]

theorem decLit_de_digitos {l : List Char} (hd : ehDigitos l = true) :
    decLit (String.mk l) = some ((valorDigitos l : ℤ) : ℚ) := by
  have hne : ¬ l.isEmpty := by
    rcases Bool.and_eq_true_iff.mp hd with ⟨h1, _⟩
    simp only [Bool.not_eq_true'] at h1 ⊢
    simp [h1]
  have hall : ∀ c ∈ l, c.isDigit = true := by
    rcases Bool.and_eq_true_iff.mp hd with ⟨_, h2⟩
    exact fun c hc => List.all_eq_true.mp h2 c hc
  obtain ⟨a, t, rfl⟩ : ∃ a t, l = a :: t := by
    cases l with
    | nil => simp at hne
    | cons a t => exact ⟨a, t, rfl⟩
  have ha : a.isDigit = true := hall a (List.mem_cons_self a t)
  have hsin : separaSinal (a :: t) = (1, a :: t) := by
    unfold separaSinal
    have hp : ¬ a = '+' := by rintro rfl; exact absurd ha (by decide)
    have hm : ¬ a = '-' := by rintro rfl; exact absurd ha (by decide)
    simp [hp, hm]
  have hexp : separaExpoente (a :: t) = (a :: t, none) := by
    refine separaExpoente_id (fun c hc => ?_)
    have := hall c hc
    rintro (rfl | rfl) <;> exact absurd this (by decide)
  have hsep : separaLista '.' (a :: t) = [a :: t] := by
    refine separaLista_id (fun c hc => ?_)
    have := hall c hc
    rintro rfl
    exact absurd this (by decide)
  have hman : mantissaDecimal (a :: t) = some (valorDigitos (a :: t), 0) := by
    unfold mantissaDecimal
    rw [hsep]
    simp [hd]
  unfold decLit
  simp only [String.data, hsin, hexp, hman]
  norm_num

theorem decLit_virgula_digitos {l : List Char} (hd : ehDigitos l = true) :
    decLit (virgulaParaPonto (String.mk l)) = some ((valorDigitos l : ℤ) : ℚ) := by
  have hall : ∀ c ∈ l, c.isDigit = true := by
    rcases Bool.and_eq_true_iff.mp hd with ⟨_, h2⟩
    exact fun c hc => List.all_eq_true.mp h2 c hc
  have hv : virgulaParaPonto (String.mk l) = String.mk l := by
    unfold virgulaParaPonto
    simp only [String.data]
    congr 1
    refine map_id_de_pontos (fun c hc => ?_)
    have := hall c hc
    have hcc : ¬ c = ',' := by rintro rfl; exact absurd this (by decide)
    simp [hcc]
  rw [hv]
  exact decLit_de_digitos hd

/-- Claim C4: on every string of exactly five decimal digits, `parse_data`
returns the epoch-offset serial date: `date(1899, 12, 30)` — two days
before 1900-01-01, reproducing the historical spreadsheet leap-year
quirk — plus the string's numeric value in days. -/
theorem c4_parse_data_serial (s : String)
    (h : ehDigitos s.data = true ∧ s.data.length = 5) :
    parse_data s = some (adicionaDias ⟨1899, 12, 30⟩ ((valorDigitos s.data : ℤ))) := by
  obtain ⟨hd, h5⟩ := h
  have hall : ∀ c ∈ s.data, c.isDigit = true := by
    rcases Bool.and_eq_true_iff.mp hd with ⟨_, h2⟩
    exact fun c hc => List.all_eq_true.mp h2 c hc
  have hstrip : pyStrip s = s := by
    unfold pyStrip
    rw [apara_id_de_digitos hall]
  have hne : ¬ s = "" := by
    rintro rfl
    simp at h5
  have hn0 : ¬ s = "0" := by
    rintro rfl
    simp at h5
  have hnot : ¬ (s = "" ∨ pyStrip s = "" ∨ pyStrip s = "0") := by
    rw [hstrip]
    rintro (h | h | h) <;> [exact hne h; exact hne h; exact hn0 h]
  unfold parse_data
  rw [if_neg hnot]
  simp only [hstrip]
  rw [if_pos ⟨hd, h5⟩]
  unfold excel_serial_para_data
  have := decLit_virgula_digitos hd
  rw [string_eta s] at this
  rw [this]
  have htr : truncaInteiro (((valorDigitos s.data : ℤ) : ℚ)) = (valorDigitos s.data : ℤ) := by
    unfold truncaInteiro
    rw [if_pos (by positivity)]
    exact Int.floor_intCast _
  show some (adicionaDias ⟨1899, 12, 30⟩ (truncaInteiro (((valorDigitos s.data : ℤ) : ℚ)))) =
    some (adicionaDias ⟨1899, 12, 30⟩ ((valorDigitos s.data : ℤ)))
  rw [htr]

/-- Witness for C4: serial `45536` maps to epoch + 45536 days.  (The
epoch-offset rule evaluates that to 2024-09-01; the source docstring's
example date `2024-08-26` is itself off by six days, but the claim and
the code agree on the rule.) -/
theorem c4_parse_data_serial_witness :
    parse_data "45536" = some (adicionaDias ⟨1899, 12, 30⟩ 45536) ∧
    adicionaDias ⟨1899, 12, 30⟩ 45536 = ⟨2024, 9, 1⟩ := by
  constructor
  · have := c4_parse_data_serial "45536" (by constructor <;> decide)
    rw [this]
    decide
  · decide

/-- The static company-code table `_EMPRESA_MAP` (utils.py). -/
def _EMPRESA_MAP : List (String × String) := [
  ("001", "001 - RN - MATRIZ"), ("002", "002 - RN - TC1"), ("003", "003 - RN - TP"),
  ("004", "004 - RN - PA1"), ("005", "005 - RN - VG1"), ("006", "006 - RN - VG2"),
  ("007", "007 - RN - CB"), ("008", "008 - RN - SR"), ("009", "009 - RN - EM"),
  ("010", "010 - RN - PA2"), ("011", "011 - RN - TC2"), ("012", "012 - RN - LB"),
  ("013", "013 - RN - CX"), ("014", "014 - RN - CP"), ("015", "015 - RN - AF1"),
  ("016", "016 - RN - CL"), ("017", "017 - RN - BE"), ("018", "018 - RN - NP"),
  ("019", "019 - RN - LV"), ("020", "020 - RN - OL"), ("021", "021 - RN - SA"),
  ("022", "022 - RN - SG"), ("023", "023 - RN - ET"), ("024", "024 - RN - PD"),
  ("025", "025 - RN - CG"), ("026", "026 - RN - CZ"), ("027", "027 - RN - MC1"),
  ("028", "028 - RN - IT"), ("029", "029 - RN - SL"), ("030", "030 - RN - MS"),
  ("031", "031 - RN - OF"), ("032", "032 - RN - JC"), ("033", "033 - RN - IJ"),
  ("034", "034 - RN - CEN"), ("035", "035 - RN - AR"), ("036", "036 - RN - AF2"),
  ("038", "038 - RN - BM"), ("039", "039 - RN - PA3"), ("040", "040 - RN - PC2"),
  ("041", "041 - RN - ITINERANTE"), ("043", "043 - RN - IN"), ("044", "044 - RN - CM"),
  ("045", "045 - RN - PS"), ("046", "046 - RN - EV"), ("047", "047 - RN - PC1"),
  ("048", "048 - RN - AT"), ("050", "050 - RN - BP"), ("051", "051 - RN - AF3"),
  ("052", "052 - RN - LV3"), ("053", "053 - RN - AF4"), ("054", "054 - RN - MC3"),
  ("055", "055 - RN - BR"), ("057", "057 - RN - IP2"), ("058", "058 - RN - IP1"),
  ("059", "059 - RN - MG"), ("060", "060 - RN - MM"), ("061", "061 - RN - JG"),
  ("097", "097 - RN - CD PA"), ("098", "098 - RN - OUTLET"),
  ("099", "099 - RN - ECOMMERCE"), ("100", "100 - RN - CD VG")]

/-- Embedding of `sintetizar_empresa` (utils.py): first three characters of
the stripped raw value looked up in the static table; unknown codes fall
back to `code - RN - ???`. -/
def sintetizar_empresa (empresaRaw : String) : String :=
  let codigo := String.mk ((aparaLista empresaRaw.data).take 3)
  match _EMPRESA_MAP.find? (fun p => p.1 = codigo) with
  | some p => p.2
  | none => codigo ++ " - RN - ???"

/-- The ordered canonical-title table `_CARGO_PREFIXOS` (utils.py). -/
def _CARGO_PREFIXOS : List (String × String) := [
  ("GERENTE DE LOJA", "Gerente de Loja"),
  ("VENDEDOR", "Vendedor"),
  ("ASSISTENTE DE LOJA", "Assistente de Loja"),
  ("ASSISTENTE COMERCIAL", "Assistente Comercial"),
  ("COORDENADOR COMERCIAL", "Coordenador Comercial")]

/-- The level suffixes matched by the alternation `(I{1,4}|IV|VI{0,3}|IX)`
of the regex in `sintetizar_cargo`. -/
def romanoValido (l : List Char) : Bool :=
  decide (l = ['I']) || decide (l = ['I', 'I']) || decide (l = ['I', 'I', 'I']) ||
  decide (l = ['I', 'I', 'I', 'I']) || decide (l = ['I', 'V']) || decide (l = ['V']) ||
  decide (l = ['V', 'I']) || decide (l = ['V', 'I', 'I']) ||
  decide (l = ['V', 'I', 'I', 'I']) || decide (l = ['I', 'X'])

/-- Does `l` consist of a roman-numeral alternative followed by trailing
whitespace and end of string (`(I{1,4}|IV|VI{0,3}|IX)\s*$`)? -/
def nucleoRomano (l : List Char) : Bool :=
  romanoValido ((l.reverse.dropWhile Char.isWhitespace).reverse)

/-- Consume the optional grade part `G\d+\s*[-–]\s*` of the regex in
`sintetizar_cargo`; `none` when the part is not present in that shape. -/
def aposGparte (l : List Char) : Option (List Char) :=
  match l with
  | 'G' :: resto =>
    let ds := resto.takeWhile Char.isDigit
    let r1 := (resto.dropWhile Char.isDigit).dropWhile Char.isWhitespace
    if ds.isEmpty then none
    else
      match r1 with
      | c :: r2 =>
        if c = '-' ∨ c = '–' then some (r2.dropWhile Char.isWhitespace) else none
      | [] => none
  | _ => none

/-- Does `(G\d+\s*[-–]\s*)?(I{1,4}|IV|VI{0,3}|IX)\s*$` match all of `l`? -/
def caudaSufixo (l : List Char) : Bool :=
  nucleoRomano l ||
    (match aposGparte l with
     | some r => nucleoRomano r
     | none => false)

/-- Does the full suffix regex `\s+(G\d+\s*[-–]\s*)?(I{1,4}|IV|VI{0,3}|IX)\s*$`
match starting exactly at the head of `l` and reaching the end? -/
def sufixoCasaEm (l : List Char) : Bool :=
  match l with
  | [] => false
  | c :: _ => c.isWhitespace && caudaSufixo (l.dropWhile Char.isWhitespace)

/-- Position of the leftmost match of the suffix regex (the match `re.sub`
replaces), if any. -/
def indiceSufixo : List Char → Option ℕ
  | [] => none
  | c :: t => if sufixoCasaEm (c :: t) then some 0 else (indiceSufixo t).map (· + 1)

/-- `re.sub(r'\s+(G\d+\s*[-–]\s*)?(I{1,4}|IV|VI{0,3}|IX)\s*$', '', ...)`:
delete the leftmost end-anchored suffix match. -/
def removeSufixoNivel (l : List Char) : List Char :=
  match indiceSufixo l with
  | none => l
  | some i => l.take i

/-- Python `str.title()` for the ASCII letters of the job titles: the first
letter of each letter run is uppercased and the rest lowercased. -/
def titulaLista (l : List Char) : List Char :=
  ((l.foldl (fun (acc : List Char × Bool) c =>
    if c.isAlpha then
      ((if acc.2 then c.toLower else c.toUpper) :: acc.1, true)
    else (c :: acc.1, false)) ([], false)).1).reverse

/-- Step 2 of `sintetizar_cargo`: first table entry equal to the uppercased
title or being a prefix of it followed by a space. -/
def buscaCanonico (upper : List Char) : List (String × String) → Option String
  | [] => none
  | (chave, canonico) :: resto =>
    if upper = chave.data ∨ listaComeca (chave.data ++ [' ']) upper = true then some canonico
    else buscaCanonico upper resto

/-- Embedding of `sintetizar_cargo` (utils.py): strip, delete the trailing
level suffix, then canonicalize by table prefix, falling back to
title-casing. -/
def sintetizar_cargo (cargoRaw : String) : String :=
  let semSufixo := removeSufixoNivel (aparaLista cargoRaw.data)
  match buscaCanonico (semSufixo.map Char.toUpper) _CARGO_PREFIXOS with
  | some canonico => canonico
  | none => String.mk (titulaLista semSufixo)

/-- One normalized row record as produced by `processar_csv` (utils.py).
The code serializes dates with `isoformat()` and decimals with `str()` for
the session and re-parses them with `date.fromisoformat`/`Decimal` in
`confirmar_importacao`; both round trips are the identity on the values, so
the embedding carries the typed values across that boundary. -/
structure Linha where
  empresa : String
  codigo : String
  nome : String
  cargo : String
  dataAdmissao : Option DataCivil
  inicioAquisitivo : DataCivil
  fimAquisitivo : DataCivil
  limiteIdeal : Option DataCivil
  limiteMaximo : Option DataCivil
  faltas : ℚ
  diasDireito : ℚ
  diasGozo : ℚ
  diasRestantes : ℚ
  diasProgramados : ℚ
deriving DecidableEq

/-- Loop state of `processar_csv`: the header flag and the carry-forward
identity variables `ultimo_codigo`/`ultimo_nome`/`ultimo_cargo`/
`ultima_empresa`/`ultima_admissao`, plus the accumulated output. -/
structure EstadoCsv where
  cabecalhoEncontrado : Bool
  ultimoCodigo : String
  ultimoNome : String
  ultimoCargo : String
  ultimaEmpresa : String
  ultimaAdmissao : Option DataCivil
  saida : List Linha
deriving DecidableEq

/-- The `while len(linha) < 15: linha.append('')` padding. -/
def preencher15 (linha : List String) : List String :=
  linha ++ List.replicate (15 - linha.length) ""

/-- Positional cell access on the padded row. -/
def celula (linha : List String) (i : ℕ) : String :=
  (preencher15 linha).getD i ""

/-- Second half of the data-row branch of `processar_csv`: the identity
fields have already been resolved (own values or carried values), the
normalizers are applied to the resolved raw values, rows without parseable
period dates or without a code are discarded, the rest are emitted. -/
def montaLinha (empresaRaw codigo nome cargoRaw : String)
    (dataAdmissao : Option DataCivil) (linha : List String)
    (st' : EstadoCsv) : EstadoCsv :=
  match parse_data (celula linha 5), parse_data (celula linha 6) with
  | some ia, some fa =>
    if codigo = "" then st'
    else
      { st' with saida := st'.saida ++
          [⟨sintetizar_empresa empresaRaw, codigo, nome, sintetizar_cargo cargoRaw,
            dataAdmissao, ia, fa,
            parse_data (celula linha 7), parse_data (celula linha 8),
            parse_decimal (celula linha 9), parse_decimal (celula linha 10),
            parse_decimal (celula linha 11), parse_decimal (celula linha 12),
            parse_decimal (celula linha 13)⟩] }
  | _, _ => st'

/-- The body of the row loop of `processar_csv`: skip fully empty rows,
look for the header marker until found, then read the data row, resolve
the row-continuation carry-forward, and hand over to `montaLinha`. -/
def procLinhaCsv (st : EstadoCsv) (linha : List String) : EstadoCsv :=
  if ∀ c ∈ linha, c = "" then st
  else if st.cabecalhoEncontrado = false then
    if ∃ c ∈ linha, listaContem ("FUNCION".data) (pyUpper (pyStrip c)).data = true then
      { st with cabecalhoEncontrado := true }
    else st
  else
    let codigo0 := pyStrip (celula linha 1)
    if codigo0 = "" then
      montaLinha st.ultimaEmpresa st.ultimoCodigo st.ultimoNome st.ultimoCargo
        st.ultimaAdmissao linha st
    else
      montaLinha (pyStrip (celula linha 0)) codigo0 (pyStrip (celula linha 2))
        (pyStrip (celula linha 3)) (parse_data (celula linha 4)) linha
        { st with ultimoCodigo := codigo0,
                  ultimoNome := pyStrip (celula linha 2),
                  ultimaEmpresa := pyStrip (celula linha 0),
                  ultimoCargo := pyStrip (celula linha 3),
                  ultimaAdmissao := parse_data (celula linha 4) }

/-- Embedding of `processar_csv` (utils.py), from the row loop down.  The
raw text, the delimiter auto-detection over the first 2000 characters and
the `csv.reader` tokenization are the excluded collaborator producing the
row sequence; the embedding takes that row sequence as input. -/
def processar_csv (linhas : List (List String)) : List Linha :=
  (linhas.foldl procLinhaCsv ⟨false, "", "", "", "", none, []⟩).saida

theorem getD_tudo_vazio (L : List String) (i : ℕ) (h : ∀ c ∈ L, c = "") :
    L.getD i "" = "" := by
  induction L generalizing i with
  | nil => simp [List.getD]
  | cons a t ih =>
    cases i with
    | zero => exact h a (List.mem_cons_self a t)
    | succ j => exact ih j (fun c hc => h c (List.mem_cons_of_mem a hc))

theorem celula_vazia (linha : List String) (i : ℕ) (h : ∀ c ∈ linha, c = "") :
    celula linha i = "" := by
  unfold celula preencher15
  refine getD_tudo_vazio _ i (fun c hc => ?_)
  rcases List.mem_append.mp hc with hc | hc
  · exact h c hc
  · exact List.eq_of_mem_replicate hc

theorem montaLinha_preserva (e c n g : String) (a : Option DataCivil)
    (linha : List String) (st' : EstadoCsv) :
    (montaLinha e c n g a linha st').cabecalhoEncontrado = st'.cabecalhoEncontrado ∧
    (montaLinha e c n g a linha st').ultimoCodigo = st'.ultimoCodigo ∧
    (montaLinha e c n g a linha st').ultimoNome = st'.ultimoNome ∧
    (montaLinha e c n g a linha st').ultimoCargo = st'.ultimoCargo ∧
    (montaLinha e c n g a linha st').ultimaEmpresa = st'.ultimaEmpresa ∧
    (montaLinha e c n g a linha st').ultimaAdmissao = st'.ultimaAdmissao := by
  unfold montaLinha
  rcases parse_data (celula linha 5) with _ | ia <;>
    rcases parse_data (celula linha 6) with _ | fa <;>
    try exact ⟨rfl, rfl, rfl, rfl, rfl, rfl⟩
  by_cases hcx : c = "" <;> simp [hcx]

theorem procLinha_branco (st : EstadoCsv) (r : List String)
    (hc : st.cabecalhoEncontrado = true) (hr : pyStrip (celula r 1) = "") :
    (procLinhaCsv st r).cabecalhoEncontrado = true ∧
    (procLinhaCsv st r).ultimoCodigo = st.ultimoCodigo ∧
    (procLinhaCsv st r).ultimoNome = st.ultimoNome ∧
    (procLinhaCsv st r).ultimoCargo = st.ultimoCargo ∧
    (procLinhaCsv st r).ultimaEmpresa = st.ultimaEmpresa ∧
    (procLinhaCsv st r).ultimaAdmissao = st.ultimaAdmissao := by
  unfold procLinhaCsv
  by_cases hv : ∀ c ∈ r, c = ""
  · rw [if_pos hv]
    exact ⟨hc, rfl, rfl, rfl, rfl, rfl⟩
  · rw [if_neg hv, if_neg (by simp [hc]), if_pos hr]
    have h := montaLinha_preserva st.ultimaEmpresa st.ultimoCodigo st.ultimoNome
      st.ultimoCargo st.ultimaAdmissao r st
    exact ⟨h.1.trans hc, h.2.1, h.2.2.1, h.2.2.2.1, h.2.2.2.2.1, h.2.2.2.2.2⟩

theorem fold_branco (middle : List (List String)) (st : EstadoCsv)
    (hc : st.cabecalhoEncontrado = true)
    (hM : ∀ r ∈ middle, pyStrip (celula r 1) = "") :
    (middle.foldl procLinhaCsv st).cabecalhoEncontrado = true ∧
    (middle.foldl procLinhaCsv st).ultimoCodigo = st.ultimoCodigo ∧
    (middle.foldl procLinhaCsv st).ultimoNome = st.ultimoNome ∧
    (middle.foldl procLinhaCsv st).ultimoCargo = st.ultimoCargo ∧
    (middle.foldl procLinhaCsv st).ultimaEmpresa = st.ultimaEmpresa ∧
    (middle.foldl procLinhaCsv st).ultimaAdmissao = st.ultimaAdmissao := by
  induction middle generalizing st with
  | nil => exact ⟨hc, rfl, rfl, rfl, rfl, rfl⟩
  | cons r resto ih =>
    have h1 := procLinha_branco st r hc (hM r (List.mem_cons_self r resto))
    have h2 := ih (procLinhaCsv st r) h1.1
      (fun x hx => hM x (List.mem_cons_of_mem r hx))
    simp only [List.foldl_cons]
    exact ⟨h2.1, h2.2.1.trans h1.2.1, h2.2.2.1.trans h1.2.2.1,
      h2.2.2.2.1.trans h1.2.2.2.1, h2.2.2.2.2.1.trans h1.2.2.2.2.1,
      h2.2.2.2.2.2.trans h1.2.2.2.2.2⟩

theorem procLinha_com_codigo (st : EstadoCsv) (r : List String)
    (hc : st.cabecalhoEncontrado = true) (hr : ¬ pyStrip (celula r 1) = "") :
    (procLinhaCsv st r).cabecalhoEncontrado = true ∧
    (procLinhaCsv st r).ultimoCodigo = pyStrip (celula r 1) ∧
    (procLinhaCsv st r).ultimoNome = pyStrip (celula r 2) ∧
    (procLinhaCsv st r).ultimoCargo = pyStrip (celula r 3) ∧
    (procLinhaCsv st r).ultimaEmpresa = pyStrip (celula r 0) ∧
    (procLinhaCsv st r).ultimaAdmissao = parse_data (celula r 4) := by
  have hv : ¬ ∀ c ∈ r, c = "" := by
    intro hv
    exact hr (by rw [celula_vazia r 1 hv]; decide)
  unfold procLinhaCsv
  rw [if_neg hv, if_neg (by simp [hc]), if_neg hr]
  have h := montaLinha_preserva (pyStrip (celula r 0)) (pyStrip (celula r 1))
    (pyStrip (celula r 2)) (pyStrip (celula r 3)) (parse_data (celula r 4)) r
    { st with ultimoCodigo := pyStrip (celula r 1),
              ultimoNome := pyStrip (celula r 2),
              ultimaEmpresa := pyStrip (celula r 0),
              ultimoCargo := pyStrip (celula r 3),
              ultimaAdmissao := parse_data (celula r 4) }
  exact ⟨h.1.trans hc, h.2.1, h.2.2.1, h.2.2.2.1, h.2.2.2.2.1, h.2.2.2.2.2⟩

theorem procLinha_branco_emite (st : EstadoCsv) (r : List String)
    (ia fa : DataCivil)
    (hc : st.cabecalhoEncontrado = true)
    (hne : ¬ ∀ c ∈ r, c = "")
    (hb : pyStrip (celula r 1) = "")
    (hcod : ¬ st.ultimoCodigo = "")
    (hIa : parse_data (celula r 5) = some ia)
    (hFa : parse_data (celula r 6) = some fa) :
    procLinhaCsv st r =
      { st with saida := st.saida ++
          [⟨sintetizar_empresa st.ultimaEmpresa, st.ultimoCodigo, st.ultimoNome,
            sintetizar_cargo st.ultimoCargo, st.ultimaAdmissao, ia, fa,
            parse_data (celula r 7), parse_data (celula r 8),
            parse_decimal (celula r 9), parse_decimal (celula r 10),
            parse_decimal (celula r 11), parse_decimal (celula r 12),
            parse_decimal (celula r 13)⟩] } := by
  unfold procLinhaCsv
  rw [if_neg hne, if_neg (by simp [hc]), if_pos hb]
  unfold montaLinha
  rw [hIa, hFa]
  simp only [if_neg hcod]

/-- Claim C5: a data row with a blank employee-code column is emitted with
the code, name, org-unit, title and hire date resolved from the nearest
preceding row that supplied a non-blank code, and the org-unit and title
canonicalizers are applied to those resolved inherited raw values, never to
the row's own blank values. -/
theorem c5_heranca_linha_continuacao
    (st : EstadoCsv) (rowA rowB : List String) (middle : List (List String))
    (ia fa : DataCivil)
    (hcab : st.cabecalhoEncontrado = true)
    (hA : ¬ pyStrip (celula rowA 1) = "")
    (hM : ∀ r ∈ middle, pyStrip (celula r 1) = "")
    (hBne : ¬ ∀ c ∈ rowB, c = "")
    (hB : pyStrip (celula rowB 1) = "")
    (hIa : parse_data (celula rowB 5) = some ia)
    (hFa : parse_data (celula rowB 6) = some fa) :
    procLinhaCsv (middle.foldl procLinhaCsv (procLinhaCsv st rowA)) rowB =
      { middle.foldl procLinhaCsv (procLinhaCsv st rowA) with
        saida := (middle.foldl procLinhaCsv (procLinhaCsv st rowA)).saida ++
          [⟨sintetizar_empresa (pyStrip (celula rowA 0)), pyStrip (celula rowA 1),
            pyStrip (celula rowA 2), sintetizar_cargo (pyStrip (celula rowA 3)),
            parse_data (celula rowA 4), ia, fa,
            parse_data (celula rowB 7), parse_data (celula rowB 8),
            parse_decimal (celula rowB 9), parse_decimal (celula rowB 10),
            parse_decimal (celula rowB 11), parse_decimal (celula rowB 12),
            parse_decimal (celula rowB 13)⟩] } := by
  have hpa := procLinha_com_codigo st rowA hcab hA
  have hpm := fold_branco middle (procLinhaCsv st rowA) hpa.1 hM
  obtain ⟨hm0, hm1, hm2, hm3, hm4, hm5⟩ := hpm
  obtain ⟨_, ha1, ha2, ha3, ha4, ha5⟩ := hpa
  rw [procLinha_branco_emite _ rowB ia fa hm0 hBne hB
    (by rw [hm1, ha1]; exact hA) hIa hFa]
  simp only [hm0, hm1, hm2, hm3, hm4, hm5, ha1, ha2, ha3, ha4, ha5]

/-- Witness for C5: a two-row batch in which the second row has a blank
code column inherits the first row's identity, with the canonicalizers
applied to the inherited raw values. -/
theorem c5_heranca_linha_continuacao_witness :
    procLinhaCsv
      (([] : List (List String)).foldl procLinhaCsv
        (procLinhaCsv ⟨true, "", "", "", "", none, []⟩
          ["001A", "77", "ANA", "VENDEDOR II", "01/01/2020", "01/01/2024",
           "31/12/2024", "", "", "1", "30,0", "0", "30", "0"]))
      ["", "", "", "", "", "01/06/2024", "31/05/2025"] =
      { ([] : List (List String)).foldl procLinhaCsv
          (procLinhaCsv ⟨true, "", "", "", "", none, []⟩
            ["001A", "77", "ANA", "VENDEDOR II", "01/01/2020", "01/01/2024",
             "31/12/2024", "", "", "1", "30,0", "0", "30", "0"]) with
        saida := (([] : List (List String)).foldl procLinhaCsv
            (procLinhaCsv ⟨true, "", "", "", "", none, []⟩
              ["001A", "77", "ANA", "VENDEDOR II", "01/01/2020", "01/01/2024",
               "31/12/2024", "", "", "1", "30,0", "0", "30", "0"])).saida ++
          [⟨sintetizar_empresa (pyStrip (celula ["001A", "77", "ANA", "VENDEDOR II",
              "01/01/2020", "01/01/2024", "31/12/2024", "", "", "1", "30,0", "0",
              "30", "0"] 0)),
            pyStrip (celula ["001A", "77", "ANA", "VENDEDOR II", "01/01/2020",
              "01/01/2024", "31/12/2024", "", "", "1", "30,0", "0", "30", "0"] 1),
            pyStrip (celula ["001A", "77", "ANA", "VENDEDOR II", "01/01/2020",
              "01/01/2024", "31/12/2024", "", "", "1", "30,0", "0", "30", "0"] 2),
            sintetizar_cargo (pyStrip (celula ["001A", "77", "ANA", "VENDEDOR II",
              "01/01/2020", "01/01/2024", "31/12/2024", "", "", "1", "30,0", "0",
              "30", "0"] 3)),
            parse_data (celula ["001A", "77", "ANA", "VENDEDOR II", "01/01/2020",
              "01/01/2024", "31/12/2024", "", "", "1", "30,0", "0", "30", "0"] 4),
            ⟨2024, 6, 1⟩, ⟨2025, 5, 31⟩,
            parse_data (celula ["", "", "", "", "", "01/06/2024", "31/05/2025"] 7),
            parse_data (celula ["", "", "", "", "", "01/06/2024", "31/05/2025"] 8),
            parse_decimal (celula ["", "", "", "", "", "01/06/2024", "31/05/2025"] 9),
            parse_decimal (celula ["", "", "", "", "", "01/06/2024", "31/05/2025"] 10),
            parse_decimal (celula ["", "", "", "", "", "01/06/2024", "31/05/2025"] 11),
            parse_decimal (celula ["", "", "", "", "", "01/06/2024", "31/05/2025"] 12),
            parse_decimal (celula ["", "", "", "", "", "01/06/2024", "31/05/2025"] 13)⟩] } :=
  c5_heranca_linha_continuacao ⟨true, "", "", "", "", none, []⟩
    ["001A", "77", "ANA", "VENDEDOR II", "01/01/2020", "01/01/2024",
     "31/12/2024", "", "", "1", "30,0", "0", "30", "0"]
    ["", "", "", "", "", "01/06/2024", "31/05/2025"] [] ⟨2024, 6, 1⟩ ⟨2025, 5, 31⟩
    rfl (by decide) (by simp) (by decide) (by decide) (by decide) (by decide)

theorem procLinha_descartada (st : EstadoCsv) (r : List String)
    (hc : st.cabecalhoEncontrado = true)
    (hr : ¬ pyStrip (celula r 1) = "")
    (hIa : parse_data (celula r 5) = none) :
    procLinhaCsv st r =
      { st with ultimoCodigo := pyStrip (celula r 1),
                ultimoNome := pyStrip (celula r 2),
                ultimaEmpresa := pyStrip (celula r 0),
                ultimoCargo := pyStrip (celula r 3),
                ultimaAdmissao := parse_data (celula r 4) } := by
  have hv : ¬ ∀ c ∈ r, c = "" := by
    intro hv
    exact hr (by rw [celula_vazia r 1 hv]; decide)
  unfold procLinhaCsv
  rw [if_neg hv, if_neg (by simp [hc]), if_neg hr]
  unfold montaLinha
  rw [hIa]

/-- Claim C9: the carry-forward identity state is updated by every data row
supplying a non-blank code, including rows discarded for an unparseable
period-start; a later blank-code row therefore inherits the identity fields
of the discarded row (not of the last emitted record), while the discarded
row itself emits nothing. -/
theorem c9_linha_descartada_atualiza_heranca
    (st : EstadoCsv) (rowA rowB : List String) (ia fa : DataCivil)
    (hcab : st.cabecalhoEncontrado = true)
    (hA : ¬ pyStrip (celula rowA 1) = "")
    (hIaA : parse_data (celula rowA 5) = none)
    (hBne : ¬ ∀ c ∈ rowB, c = "")
    (hB : pyStrip (celula rowB 1) = "")
    (hIa : parse_data (celula rowB 5) = some ia)
    (hFa : parse_data (celula rowB 6) = some fa) :
    (procLinhaCsv st rowA).saida = st.saida ∧
    procLinhaCsv (procLinhaCsv st rowA) rowB =
      { procLinhaCsv st rowA with saida := st.saida ++
          [⟨sintetizar_empresa (pyStrip (celula rowA 0)), pyStrip (celula rowA 1),
            pyStrip (celula rowA 2), sintetizar_cargo (pyStrip (celula rowA 3)),
            parse_data (celula rowA 4), ia, fa,
            parse_data (celula rowB 7), parse_data (celula rowB 8),
            parse_decimal (celula rowB 9), parse_decimal (celula rowB 10),
            parse_decimal (celula rowB 11), parse_decimal (celula rowB 12),
            parse_decimal (celula rowB 13)⟩] } := by
  have hd := procLinha_descartada st rowA hcab hA hIaA
  have e0 : (procLinhaCsv st rowA).cabecalhoEncontrado = true := by rw [hd]; exact hcab
  have e1 : (procLinhaCsv st rowA).ultimoCodigo = pyStrip (celula rowA 1) := by rw [hd]
  have e2 : (procLinhaCsv st rowA).ultimoNome = pyStrip (celula rowA 2) := by rw [hd]
  have e3 : (procLinhaCsv st rowA).ultimoCargo = pyStrip (celula rowA 3) := by rw [hd]
  have e4 : (procLinhaCsv st rowA).ultimaEmpresa = pyStrip (celula rowA 0) := by rw [hd]
  have e5 : (procLinhaCsv st rowA).ultimaAdmissao = parse_data (celula rowA 4) := by
    rw [hd]
  have esaida : (procLinhaCsv st rowA).saida = st.saida := by rw [hd]
  refine ⟨esaida, ?_⟩
  rw [procLinha_branco_emite _ rowB ia fa e0 hBne hB (by rw [e1]; exact hA) hIa hFa]
  simp only [e1, e2, e3, e4, e5, esaida]

/-- Witness for C9: a row with code `88` whose period-start does not parse
is discarded yet hands its identity to the following blank-code row. -/
theorem c9_linha_descartada_atualiza_heranca_witness :
    (procLinhaCsv ⟨true, "", "", "", "", none, []⟩
      ["002B", "88", "RUI", "CAIXA", "02/02/2021", "xx", ""]).saida = [] ∧
    procLinhaCsv
      (procLinhaCsv ⟨true, "", "", "", "", none, []⟩
        ["002B", "88", "RUI", "CAIXA", "02/02/2021", "xx", ""])
      ["", "", "", "", "", "01/07/2024", "30/06/2025"] =
      { procLinhaCsv ⟨true, "", "", "", "", none, []⟩
          ["002B", "88", "RUI", "CAIXA", "02/02/2021", "xx", ""] with
        saida := ([] : List Linha) ++
          [⟨sintetizar_empresa (pyStrip (celula ["002B", "88", "RUI", "CAIXA",
              "02/02/2021", "xx", ""] 0)),
            pyStrip (celula ["002B", "88", "RUI", "CAIXA", "02/02/2021", "xx", ""] 1),
            pyStrip (celula ["002B", "88", "RUI", "CAIXA", "02/02/2021", "xx", ""] 2),
            sintetizar_cargo (pyStrip (celula ["002B", "88", "RUI", "CAIXA",
              "02/02/2021", "xx", ""] 3)),
            parse_data (celula ["002B", "88", "RUI", "CAIXA", "02/02/2021", "xx", ""] 4),
            ⟨2024, 7, 1⟩, ⟨2025, 6, 30⟩,
            parse_data (celula ["", "", "", "", "", "01/07/2024", "30/06/2025"] 7),
            parse_data (celula ["", "", "", "", "", "01/07/2024", "30/06/2025"] 8),
            parse_decimal (celula ["", "", "", "", "", "01/07/2024", "30/06/2025"] 9),
            parse_decimal (celula ["", "", "", "", "", "01/07/2024", "30/06/2025"] 10),
            parse_decimal (celula ["", "", "", "", "", "01/07/2024", "30/06/2025"] 11),
            parse_decimal (celula ["", "", "", "", "", "01/07/2024", "30/06/2025"] 12),
            parse_decimal (celula ["", "", "", "", "", "01/07/2024", "30/06/2025"] 13)⟩] } :=
  c9_linha_descartada_atualiza_heranca ⟨true, "", "", "", "", none, []⟩
    ["002B", "88", "RUI", "CAIXA", "02/02/2021", "xx", ""]
    ["", "", "", "", "", "01/07/2024", "30/06/2025"] ⟨2024, 7, 1⟩ ⟨2025, 6, 30⟩
    rfl (by decide) (by decide) (by decide) (by decide) (by decide) (by decide)

/-- Python `dict` assignment `m[k] = v`: replace the value of an existing
key in place, else append the new key at the end. -/
def dictPut : List (String × String) → String → String → List (String × String)
  | [], k, v => [(k, v)]
  | p :: resto, k, v => if p.1 = k then (k, v) :: resto else p :: dictPut resto k v

/-- Python `dict` lookup `m[k]` (as an option). -/
def dictGet (m : List (String × String)) (k : String) : Option String :=
  (m.find? (fun p => p.1 = k)).map (fun p => p.2)

/-- Result record of `analisar_importacao`.  The `removidos_objs` queryset
of the code is display data fetched from storage, outside this embedding. -/
structure Analise where
  novos : List String
  removidos : List String
  existentes : List String
  novosNomes : List (String × String)
deriving DecidableEq

/-- Embedding of `analisar_importacao` (utils.py).  The Python sets are
represented by code lists compared by membership; `novos_nomes` is the dict
comprehension `{l['codigo']: l['nome'] for l in linhas_csv if l['codigo'] in novos}`,
built left to right with Python dict-assignment semantics. -/
def analisar_importacao (linhasCsv : List Linha) (codigosBanco : List String) : Analise :=
  let codigosCsv := linhasCsv.map (fun l => l.codigo)
  let novos := codigosCsv.filter (fun c => decide (c ∉ codigosBanco))
  let removidos := codigosBanco.filter (fun c => decide (c ∉ codigosCsv))
  let existentes := codigosCsv.filter (fun c => decide (c ∈ codigosBanco))
  let novosNomes := linhasCsv.foldl
    (fun m l => if l.codigo ∈ novos then dictPut m l.codigo l.nome else m) []
  ⟨novos, removidos, existentes, novosNomes⟩

/-- Name carried by the LAST row of the sequence bearing the given code. -/
def ultimoNomePara : List Linha → String → Option String
  | [], _ => none
  | l :: t, c =>
    match ultimoNomePara t c with
    | some n => some n
    | none => if l.codigo = c then some l.nome else none

theorem dictGet_dictPut_eq (m : List (String × String)) (k v : String) :
    dictGet (dictPut m k v) k = some v := by
  induction m with
  | nil => simp [dictPut, dictGet, List.find?]
  | cons a t ih =>
    by_cases hk : a.1 = k
    · simp [dictPut, hk, dictGet, List.find?]
    · simp only [dictPut, if_neg hk]
      simp only [dictGet, List.find?] at ih ⊢
      simp [hk, ih]

theorem dictGet_dictPut_ne (m : List (String × String)) (k v c : String)
    (hne : ¬ k = c) : dictGet (dictPut m k v) c = dictGet m c := by
  induction m with
  | nil => simp [dictPut, dictGet, List.find?, hne]
  | cons a t ih =>
    by_cases hk : a.1 = k
    · have hac : ¬ a.1 = c := by rw [hk]; exact hne
      simp [dictPut, hk, dictGet, List.find?, hne, hac]
    · simp only [dictPut, if_neg hk]
      by_cases hac : a.1 = c
      · simp [dictGet, List.find?, hac]
      · simp only [dictGet, List.find?] at ih ⊢
        simp [hac, ih]

theorem dictGet_fold_ultimo (linhas : List Linha) (nv : List String)
    (m : List (String × String)) (c : String) (hc : c ∈ nv) :
    dictGet (linhas.foldl
      (fun m l => if l.codigo ∈ nv then dictPut m l.codigo l.nome else m) m) c =
      match ultimoNomePara linhas c with
      | some n => some n
      | none => dictGet m c := by
  induction linhas generalizing m with
  | nil => rfl
  | cons l t ih =>
    simp only [List.foldl_cons]
    rw [ih]
    rcases hu : ultimoNomePara t c with _ | n
    · unfold ultimoNomePara
      rw [hu]
      by_cases hlc : l.codigo = c
      · rw [if_pos hlc, if_pos (hlc ▸ hc)]
        subst hlc
        exact dictGet_dictPut_eq m l.codigo l.nome
      · rw [if_neg hlc]
        by_cases hin : l.codigo ∈ nv
        · rw [if_pos hin]
          exact dictGet_dictPut_ne m l.codigo l.nome c hlc
        · rw [if_neg hin]
    · unfold ultimoNomePara
      rw [hu]

/-- Shared concrete row for witnesses: only the code and name matter. -/
def linhaTeste (codigo nome : String) : Linha :=
  ⟨"", codigo, nome, "", none, ⟨2024, 1, 1⟩, ⟨2024, 12, 31⟩, none, none, 0, 0, 0, 0, 0⟩

/-- Counterexample to claim C6: with two rows bearing the same new code `7`
(first name `A`, later name `B`), the analysis attaches the LAST row's name
`B`, not the first-appearance name `A` the claim requires. -/
theorem c6_contraexemplo_primeiro_nome :
    (([linhaTeste "7" "A", linhaTeste "7" "B"].find?
        (fun l => l.codigo = "7")).map (fun l => l.nome) = some "A") ∧
    dictGet (analisar_importacao [linhaTeste "7" "A", linhaTeste "7" "B"] []).novosNomes "7"
      = some "B" ∧
    ¬ ((some "B" : Option String) = some "A") := by
  refine ⟨by decide, ?_, by decide⟩
  decide

/-- Claim C6 amended: the analysis attaches, for each new code, the display
name of that code's LAST appearance in the row sequence (keys still appear
in first-appearance order, but a later row bearing the same code overwrites
the name). -/
theorem c6_emendado_ultimo_nome (linhas : List Linha) (banco : List String)
    (c : String) (hc : c ∈ (analisar_importacao linhas banco).novos) :
    dictGet (analisar_importacao linhas banco).novosNomes c = ultimoNomePara linhas c := by
  unfold analisar_importacao at hc ⊢
  rw [dictGet_fold_ultimo linhas _ [] c hc]
  rcases hu : ultimoNomePara linhas c with _ | n
  · rfl
  · rfl

/-- Witness for the amended C6. -/
theorem c6_emendado_ultimo_nome_witness :
    dictGet (analisar_importacao [linhaTeste "9" "X"] []).novosNomes "9"
      = ultimoNomePara [linhaTeste "9" "X"] "9" :=
  c6_emendado_ultimo_nome [linhaTeste "9" "X"] [] "9" (by decide)

/-- A `ParcelaFerias` row (models.py): target month string, optional day
count, free-text note. -/
structure Parcela where
  mesFerias : String
  dias : Option ℚ
  observacao : String
deriving DecidableEq

/-- A `PeriodoAquisitivo` row (models.py) together with its owned
`parcelas` collection (the FK relation with cascading delete), referencing
its `Colaborador` by the unique external code. -/
structure Periodo where
  codigo : String
  inicioAquisitivo : DataCivil
  fimAquisitivo : DataCivil
  limiteIdeal : Option DataCivil
  limiteMaximo : Option DataCivil
  faltas : ℚ
  diasDireito : ℚ
  diasGozo : ℚ
  diasRestantes : ℚ
  diasProgramados : ℚ
  parcelas : List Parcela
deriving DecidableEq

/-- The JSON body of `salvar_parcela` (views.py): `mes_ferias` (missing key
read as `''` by `data.get`), optional `dias` string, `observacao`. -/
structure ParcelaReq where
  mesFerias : String
  dias : Option String
  observacao : String
deriving DecidableEq

/-- The user-visible validation errors of `salvar_parcela` (views.py); the
code formats these into the messages of its JSON 400 responses. -/
inductive ErroParcela where
  | mesInvalido
  | diasInvalido
  | limiteExcedido (disponiveis jaUsados direito : ℚ)
deriving DecidableEq

/-- Outcome of `salvar_parcela`: a 400 error, or the 200 payload's
`dias_usados` total (the refreshed installment list is the period's
`parcelas` in the returned state). -/
inductive RespostaParcela where
  | erro (e : ErroParcela)
  | ok (diasUsados : ℚ)
deriving DecidableEq

/-- `sum(p.dias for p in parcelas if p.dias is not None)`. -/
def somaDias (ps : List Parcela) : ℚ :=
  (ps.filterMap (fun p => p.dias)).sum

/-- `data.get('dias', '').strip() if data.get('dias') else None`, with the
subsequent `if dias_raw:` collapsing a whitespace-only value to no day
count: the effective stripped day-count string (`""` meaning `None`). -/
def diasBrutos (req : ParcelaReq) : String :=
  match req.dias with
  | none => ""
  | some s => if s = "" then "" else pyStrip s

/-- `ParcelaFerias.objects.create(...)` followed by the refreshed response:
append the new installment and return the new `dias_usados` total. -/
def criaParcela (periodo : Periodo) (mes : String) (dias : Option ℚ)
    (req : ParcelaReq) : Periodo × RespostaParcela :=
  let p' := { periodo with parcelas := periodo.parcelas ++
      [⟨mes, dias, pyStrip req.observacao⟩] }
  (p', .ok (somaDias p'.parcelas))

/-- Embedding of `salvar_parcela` (views.py): month-shape check
(`not mes or len(mes) != 7 or mes[4] != '-'`), day-count parse, and the
entitlement-limit check — which runs only when a day count was supplied AND
`periodo.dias_direito` is truthy (nonzero).  An error leaves the period
unchanged (no mutation). -/
def salvar_parcela (periodo : Periodo) (req : ParcelaReq) :
    Periodo × RespostaParcela :=
  let mes := pyStrip req.mesFerias
  if mes = "" ∨ ¬ mes.data.length = 7 ∨ ¬ mes.data.getD 4 ' ' = '-' then
    (periodo, .erro .mesInvalido)
  else
    let diasRaw := diasBrutos req
    if diasRaw = "" then criaParcela periodo mes none req
    else
      match decLit diasRaw with
      | none => (periodo, .erro .diasInvalido)
      | some d =>
        if ¬ periodo.diasDireito = 0 then
          if somaDias periodo.parcelas + d > periodo.diasDireito then
            (periodo, .erro (.limiteExcedido
              (periodo.diasDireito - somaDias periodo.parcelas)
              (somaDias periodo.parcelas) periodo.diasDireito))
          else criaParcela periodo mes (some d) req
        else criaParcela periodo mes (some d) req

theorem somaDias_append (ps : List Parcela) (p : Parcela) :
    somaDias (ps ++ [p]) = somaDias ps + (p.dias.getD 0) := by
  obtain ⟨m, dias, o⟩ := p
  unfold somaDias
  rw [List.filterMap_append, List.sum_append]
  rcases dias with _ | d <;> simp [List.filterMap]

/-- Shared concrete period with zero entitlement and no installments. -/
def periodoTeste : Periodo :=
  ⟨"1", ⟨2024, 1, 1⟩, ⟨2024, 12, 31⟩, none, none, 0, 0, 0, 0, 0, []⟩

/-- Shared concrete period with entitlement 10 and no installments. -/
def periodoDez : Periodo :=
  ⟨"1", ⟨2024, 1, 1⟩, ⟨2024, 12, 31⟩, none, none, 0, 10, 0, 0, 0, []⟩

/-- The month format the specification requires: exactly a 4-digit year, a
dash, and a 2-digit month.  (Modelled from the spec's words, for comparison
with the weaker shape check the code performs.) -/
def formatoAnoMes (s : String) : Bool :=
  match s.data with
  | [a, b, c, d, e, f, g] =>
    a.isDigit && b.isDigit && c.isDigit && d.isDigit &&
      decide (e = '-') && f.isDigit && g.isDigit
  | _ => false

/-- Counterexample to claim C7: `"ABCD-EF"` is not a 4-digit-dash-2-digit
month, yet `salvar_parcela` accepts it and creates the installment — the
code checks only the length and the dash position, never the digits. -/
theorem c7_contraexemplo_mes_sem_digitos :
    formatoAnoMes "ABCD-EF" = false ∧
    (salvar_parcela periodoTeste ⟨"ABCD-EF", none, ""⟩).2 = .ok 0 ∧
    (salvar_parcela periodoTeste ⟨"ABCD-EF", none, ""⟩).1.parcelas =
      [⟨"ABCD-EF", none, ""⟩] := by
  refine ⟨by decide, by decide, by decide⟩

/-- Claim C7 amended: installment creation rejects, with a user-visible
error and no mutation, exactly the month values that are empty, not of
length 7, or lacking a dash at index 4; any 7-character value with a dash
at index 4 passes the format check (digits are not verified). -/
theorem c7_emendado_verificacao_forma (periodo : Periodo) (req : ParcelaReq) :
    ((pyStrip req.mesFerias = "" ∨ ¬ (pyStrip req.mesFerias).data.length = 7 ∨
        ¬ (pyStrip req.mesFerias).data.getD 4 ' ' = '-') →
      salvar_parcela periodo req = (periodo, .erro .mesInvalido)) ∧
    (¬ (pyStrip req.mesFerias = "" ∨ ¬ (pyStrip req.mesFerias).data.length = 7 ∨
        ¬ (pyStrip req.mesFerias).data.getD 4 ' ' = '-') →
      ¬ (salvar_parcela periodo req).2 = .erro .mesInvalido) := by
  constructor
  · intro h
    unfold salvar_parcela
    rw [if_pos h]
  · intro h
    unfold salvar_parcela
    rw [if_neg h]
    by_cases hdr : diasBrutos req = ""
    · rw [if_pos hdr]
      simp [criaParcela]
    · rw [if_neg hdr]
      rcases decLit (diasBrutos req) with _ | d
      · simp
      · by_cases hz : ¬ periodo.diasDireito = 0
        · simp only [if_pos hz]
          by_cases hgt : somaDias periodo.parcelas + d > periodo.diasDireito
          · simp only [if_pos hgt]
            simp
          · simp only [if_neg hgt]
            simp [criaParcela]
        · simp only [if_neg hz]
          simp [criaParcela]

/-- Witness for the amended C7: `"2025/01"` has length 7 but no dash at
index 4, so it is rejected with no mutation. -/
theorem c7_emendado_verificacao_forma_witness :
    salvar_parcela periodoTeste ⟨"2025/01", none, ""⟩ =
      (periodoTeste, .erro .mesInvalido) :=
  (c7_emendado_verificacao_forma periodoTeste ⟨"2025/01", none, ""⟩).1 (by decide)

/-- Counterexample to claim C3: with entitlement-days 0 the truthiness
guard `periodo.dias_direito` skips the limit check entirely, so a 5-day
installment is created and the sum (5) exceeds the entitlement (0). -/
theorem c3_contraexemplo_direito_zero :
    periodoTeste.diasDireito = 0 ∧
    (salvar_parcela periodoTeste ⟨"2025-01", some "5", ""⟩).2 = .ok 5 ∧
    somaDias (salvar_parcela periodoTeste ⟨"2025-01", some "5", ""⟩).1.parcelas = 5 ∧
    ¬ (somaDias (salvar_parcela periodoTeste ⟨"2025-01", some "5", ""⟩).1.parcelas ≤
        periodoTeste.diasDireito) := by
  refine ⟨by decide, by decide, by decide, by decide⟩

/-- Claim C3 amended: when the period's entitlement-days is NONZERO and a
day count is supplied, a successful creation leaves the sum of the period's
installment day counts at most the entitlement, and a request that would
push the sum past the entitlement is rejected with no installment created;
when entitlement-days is zero (or no day count is supplied) the check is
skipped and creation is unconditional. -/
theorem c3_emendado_limite_com_direito (periodo : Periodo) (req : ParcelaReq)
    (d : ℚ) (hdir : ¬ periodo.diasDireito = 0)
    (hne : ¬ diasBrutos req = "") (hd : decLit (diasBrutos req) = some d) :
    (∀ p' u, salvar_parcela periodo req = (p', .ok u) →
      somaDias p'.parcelas ≤ periodo.diasDireito) ∧
    (somaDias periodo.parcelas + d > periodo.diasDireito →
      (salvar_parcela periodo req).1 = periodo ∧
      ∀ u, ¬ (salvar_parcela periodo req).2 = .ok u) := by
  unfold salvar_parcela
  by_cases hmes : pyStrip req.mesFerias = "" ∨
      ¬ (pyStrip req.mesFerias).data.length = 7 ∨
      ¬ (pyStrip req.mesFerias).data.getD 4 ' ' = '-'
  · rw [if_pos hmes]
    constructor
    · intro p' u heq
      exact absurd (congrArg Prod.snd heq) (by simp)
    · intro _
      exact ⟨by trivial, fun u => by simp⟩
  · rw [if_neg hmes, if_neg hne, hd]
    simp only [if_pos hdir]
    by_cases hgt : somaDias periodo.parcelas + d > periodo.diasDireito
    · simp only [if_pos hgt]
      constructor
      · intro p' u heq
        exact absurd (congrArg Prod.snd heq) (by simp)
      · intro _
        exact ⟨by trivial, fun u => by simp⟩
    · simp only [if_neg hgt]
      constructor
      · intro p' u heq
        have hp' : p' = { periodo with parcelas := periodo.parcelas ++
            [⟨pyStrip req.mesFerias, some d, pyStrip req.observacao⟩] } :=
          (congrArg Prod.fst heq).symm
        rw [hp']
        simp only [somaDias_append]
        simpa using not_lt.mp hgt
      · intro hgt2
        exact absurd hgt2 hgt

/-- Witness for the amended C3: entitlement 10, request for 11 days — the
request is rejected and nothing is created. -/
theorem c3_emendado_limite_com_direito_witness :
    (salvar_parcela periodoDez ⟨"2025-03", some "11", ""⟩).1 = periodoDez ∧
    ∀ u, ¬ (salvar_parcela periodoDez ⟨"2025-03", some "11", ""⟩).2 = .ok u :=
  (c3_emendado_limite_com_direito periodoDez ⟨"2025-03", some "11", ""⟩ 11
    (by decide) (by decide) (by decide)).2 (by decide)

/-- Shared concrete period with entitlement 10 whose installments already
sum to 100 (reachable: a re-import may lower `dias_direito` while
preserving installments). -/
def periodoEstourado : Periodo :=
  ⟨"1", ⟨2024, 1, 1⟩, ⟨2024, 12, 31⟩, none, none, 0, 10, 0, 0, 0,
    [⟨"2025-01", some 100, ""⟩]⟩

/-- Counterexample to claim C10: a negative day count does NOT always pass
the entitlement-limit check — when the existing sum (100) already exceeds
the entitlement (10), the request for `-1` day is rejected, not created. -/
theorem c10_contraexemplo_negativo_rejeitado :
    decLit (diasBrutos ⟨"2025-02", some "-1", ""⟩) = some (-1) ∧
    (salvar_parcela periodoEstourado ⟨"2025-02", some "-1", ""⟩).1 = periodoEstourado ∧
    (salvar_parcela periodoEstourado ⟨"2025-02", some "-1", ""⟩).2 =
      .erro (.limiteExcedido (10 - 100) 100 10) := by
  refine ⟨by decide, by decide, by decide⟩

/-- Claim C10 amended: installment creation places no lower bound on the
day count — whenever the month shape passes, the day-count string parses to
a negative decimal, and the period's existing day-count sum does not exceed
its entitlement (or the entitlement is zero, skipping the check), the
limit check passes, the installment is created with the negative count, and
the returned days-used total is the old sum plus the negative count. -/
theorem c10_emendado_dias_negativos (periodo : Periodo) (req : ParcelaReq)
    (d : ℚ)
    (hmes : ¬ (pyStrip req.mesFerias = "" ∨
      ¬ (pyStrip req.mesFerias).data.length = 7 ∨
      ¬ (pyStrip req.mesFerias).data.getD 4 ' ' = '-'))
    (hne : ¬ diasBrutos req = "") (hd : decLit (diasBrutos req) = some d)
    (hneg : d < 0)
    (hsum : somaDias periodo.parcelas ≤ periodo.diasDireito ∨
      periodo.diasDireito = 0) :
    salvar_parcela periodo req =
      ({ periodo with parcelas := periodo.parcelas ++
          [⟨pyStrip req.mesFerias, some d, pyStrip req.observacao⟩] },
       .ok (somaDias periodo.parcelas + d)) := by
  unfold salvar_parcela
  rw [if_neg hmes, if_neg hne, hd]
  by_cases hz : ¬ periodo.diasDireito = 0
  · simp only [if_pos hz]
    have hle : somaDias periodo.parcelas ≤ periodo.diasDireito := by
      rcases hsum with h | h
      · exact h
      · exact absurd h hz
    have hnotgt : ¬ somaDias periodo.parcelas + d > periodo.diasDireito := by
      push_neg
      calc somaDias periodo.parcelas + d ≤ somaDias periodo.parcelas + 0 := by
            exact add_le_add_left (le_of_lt hneg) _
        _ = somaDias periodo.parcelas := by ring
        _ ≤ periodo.diasDireito := hle
    simp only [if_neg hnotgt]
    simp [criaParcela, somaDias_append]
  · simp only [if_neg hz]
    simp [criaParcela, somaDias_append]

/-- Witness for the amended C10: entitlement 10, one 4-day installment,
request for `-1` days — created, and the days-used total drops to 3. -/
theorem c10_emendado_dias_negativos_witness :
    salvar_parcela
      ⟨"1", ⟨2024, 1, 1⟩, ⟨2024, 12, 31⟩, none, none, 0, 10, 0, 0, 0,
        [⟨"2025-01", some 4, ""⟩]⟩ ⟨"2025-04", some "-1", ""⟩ =
      ({ (⟨"1", ⟨2024, 1, 1⟩, ⟨2024, 12, 31⟩, none, none, 0, 10, 0, 0, 0,
          [⟨"2025-01", some 4, ""⟩]⟩ : Periodo) with
        parcelas := [⟨"2025-01", some 4, ""⟩] ++
          [⟨pyStrip "2025-04", some (-1), pyStrip ""⟩] },
       .ok (somaDias [⟨"2025-01", some 4, ""⟩] + (-1))) :=
  c10_emendado_dias_negativos
    ⟨"1", ⟨2024, 1, 1⟩, ⟨2024, 12, 31⟩, none, none, 0, 10, 0, 0, 0,
      [⟨"2025-01", some 4, ""⟩]⟩ ⟨"2025-04", some "-1", ""⟩ (-1)
    (by decide) (by decide) (by decide) (by decide) (by decide)

/-- A `Colaborador` row (models.py): unique external code, identity fields,
optional hire date, active flag. -/
structure Colaborador where
  codigo : String
  nome : String
  cargo : String
  empresa : String
  dataAdmissao : Option DataCivil
  ativo : Bool
deriving DecidableEq

/-- An `ImportacaoProvisao` audit row (models.py), sans timestamp. -/
structure RegistroImportacao where
  totalLinhas : ℕ
  novos : ℕ
  removidos : ℕ
  atualizados : ℕ
deriving DecidableEq

/-- The persisted state the import commit operates on: the three tables.
Rows are lists in insertion order; `get_or_create` under the schema's
unique constraints behaves as "update first match, else append". -/
structure Estado where
  colaboradores : List Colaborador
  periodos : List Periodo
  importacoes : List RegistroImportacao
deriving DecidableEq

/-- The non-created arm of the `Colaborador` upsert: overwrite
name/title/org-unit of the first row with this code and force it active
(hire date is NOT touched on update). -/
def atualizaColab (l : Linha) : List Colaborador → List Colaborador
  | [] => []
  | c :: t =>
    if c.codigo = l.codigo then
      { c with nome := l.nome, cargo := l.cargo, empresa := l.empresa, ativo := true } :: t
    else c :: atualizaColab l t

/-- The created arm of the `Colaborador` upsert (`get_or_create` defaults);
under `adicionar_novos = False` the code immediately saves `ativo = False`. -/
def novoColab (l : Linha) (ativo : Bool) : Colaborador :=
  ⟨l.codigo, l.nome, l.cargo, l.empresa, l.dataAdmissao, ativo⟩

/-- The created arm of the `PeriodoAquisitivo` upsert: all ERP fields from
the row, no installments. -/
def novoPeriodo (l : Linha) : Periodo :=
  ⟨l.codigo, l.inicioAquisitivo, l.fimAquisitivo, l.limiteIdeal, l.limiteMaximo,
    l.faltas, l.diasDireito, l.diasGozo, l.diasRestantes, l.diasProgramados, []⟩

/-- The non-created arm of the period upsert: overwrite only the
ERP-sourced fields; the key and the installments are untouched. -/
def escreveErp (p : Periodo) (l : Linha) : Periodo :=
  { p with fimAquisitivo := l.fimAquisitivo, limiteIdeal := l.limiteIdeal,
           limiteMaximo := l.limiteMaximo, faltas := l.faltas,
           diasDireito := l.diasDireito, diasGozo := l.diasGozo,
           diasRestantes := l.diasRestantes, diasProgramados := l.diasProgramados }

/-- Overwrite the ERP fields of the first period row matching the
`(colaborador, inicio_aquisitivo)` key. -/
def atualizaPeriodo (l : Linha) : List Periodo → List Periodo
  | [] => []
  | p :: t =>
    if p.codigo = l.codigo ∧ p.inicioAquisitivo = l.inicioAquisitivo then
      escreveErp p l :: t
    else p :: atualizaPeriodo l t

/-- `PeriodoAquisitivo.objects.get_or_create` keyed by
`(colaborador, inicio_aquisitivo)`: update the existing row's ERP fields,
or append a new row.  The boolean is `periodo_criado`. -/
def upsertPeriodo (l : Linha) (ps : List Periodo) : List Periodo × Bool :=
  if ∃ p ∈ ps, p.codigo = l.codigo ∧ p.inicioAquisitivo = l.inicioAquisitivo then
    (atualizaPeriodo l ps, false)
  else (ps ++ [novoPeriodo l], true)

/-- Loop accumulator of `confirmar_importacao`: the evolving state and the
`novos_count` / `atualizados_count` counters. -/
structure AcumuladorCommit where
  st : Estado
  novosCont : ℕ
  atualizadosCont : ℕ
deriving DecidableEq

/-- One iteration of the row loop of `confirmar_importacao` (views.py):
upsert the employee by code (skipping period processing for an unadmitted
new employee, which is created inactive), then upsert the acquisition
period by `(employee, period start)`. -/
def procLinhaCommit (adicionarNovos : Bool) (acc : AcumuladorCommit)
    (l : Linha) : AcumuladorCommit :=
  if ∃ c ∈ acc.st.colaboradores, c.codigo = l.codigo then
    let cs := atualizaColab l acc.st.colaboradores
    let pr := upsertPeriodo l acc.st.periodos
    ⟨⟨cs, pr.1, acc.st.importacoes⟩, acc.novosCont,
      acc.atualizadosCont + 1 + (if pr.2 then 0 else 1)⟩
  else if adicionarNovos then
    let cs := acc.st.colaboradores ++ [novoColab l true]
    let pr := upsertPeriodo l acc.st.periodos
    ⟨⟨cs, pr.1, acc.st.importacoes⟩, acc.novosCont + 1,
      acc.atualizadosCont + (if pr.2 then 0 else 1)⟩
  else
    ⟨⟨acc.st.colaboradores ++ [novoColab l false], acc.st.periodos,
      acc.st.importacoes⟩, acc.novosCont, acc.atualizadosCont⟩

/-- `removidos.update(ativo=False)`: deactivate (never delete) every active
employee whose code is absent from the import. -/
def desativaAusentes (codigosCsv : List String)
    (cs : List Colaborador) : List Colaborador :=
  cs.map (fun c =>
    if c.ativo = true ∧ c.codigo ∉ codigosCsv then { c with ativo := false } else c)

/-- `removidos.count()`: the number of active employees whose code is
absent from the import. -/
def contaRemovidos (codigosCsv : List String) (cs : List Colaborador) : ℕ :=
  (cs.filter (fun c => decide (c.ativo = true ∧ c.codigo ∉ codigosCsv))).length

/-- Embedding of `confirmar_importacao` (views.py): the transactional row
loop, the optional deactivation pass, and the appended audit record.  The
session batch carries dates/decimals as ISO/decimal strings; re-parsing
them (`date.fromisoformat`, `Decimal`) is the identity on the values, so
the rows are taken already typed. -/
def confirmar_importacao (linhas : List Linha)
    (adicionarNovos removerAntigos : Bool) (st : Estado) : Estado :=
  let r := linhas.foldl (procLinhaCommit adicionarNovos) ⟨st, 0, 0⟩
  let codigosCsv := linhas.map (fun l => l.codigo)
  let removidosCont := if removerAntigos then
      contaRemovidos codigosCsv r.st.colaboradores
    else 0
  let cs := if removerAntigos then desativaAusentes codigosCsv r.st.colaboradores
    else r.st.colaboradores
  { colaboradores := cs, periodos := r.st.periodos,
    importacoes := r.st.importacoes ++
      [⟨linhas.length, r.novosCont, removidosCont, r.atualizadosCont⟩] }

/-- A sequence of operator-confirmed imports (batch, admit-new flag,
deactivate-missing flag) applied in order. -/
def aplicaImportacoes (imps : List (List Linha × Bool × Bool)) (st : Estado) : Estado :=
  imps.foldl (fun s imp => confirmar_importacao imp.1 imp.2.1 imp.2.2 s) st

/-- The non-ERP-sourced components of a period row: its key and its owned
installments (each with day count and note). -/
def quadroPeriodo (p : Periodo) : String × DataCivil × List Parcela :=
  (p.codigo, p.inicioAquisitivo, p.parcelas)

theorem quadro_escreveErp (p : Periodo) (l : Linha) :
    quadroPeriodo (escreveErp p l) = quadroPeriodo p := rfl

theorem quadro_atualizaPeriodo (l : Linha) (ps : List Periodo) :
    (atualizaPeriodo l ps).map quadroPeriodo = ps.map quadroPeriodo := by
  induction ps with
  | nil => rfl
  | cons p t ih =>
    unfold atualizaPeriodo
    by_cases h : p.codigo = l.codigo ∧ p.inicioAquisitivo = l.inicioAquisitivo
    · rw [if_pos h]
      simp [quadro_escreveErp]
    · rw [if_neg h]
      simp [ih]

theorem quadro_upsert (l : Linha) (ps : List Periodo) :
    ∃ ext, ((upsertPeriodo l ps).1).map quadroPeriodo = ps.map quadroPeriodo ++ ext := by
  unfold upsertPeriodo
  by_cases h : ∃ p ∈ ps, p.codigo = l.codigo ∧ p.inicioAquisitivo = l.inicioAquisitivo
  · rw [if_pos h]
    exact ⟨[], by simp [quadro_atualizaPeriodo]⟩
  · rw [if_neg h]
    exact ⟨[quadroPeriodo (novoPeriodo l)], by simp⟩

theorem quadro_procLinhaCommit (a : Bool) (acc : AcumuladorCommit) (l : Linha) :
    ∃ ext, ((procLinhaCommit a acc l).st.periodos).map quadroPeriodo =
      (acc.st.periodos).map quadroPeriodo ++ ext := by
  unfold procLinhaCommit
  by_cases h : ∃ c ∈ acc.st.colaboradores, c.codigo = l.codigo
  · rw [if_pos h]
    exact quadro_upsert l acc.st.periodos
  · rw [if_neg h]
    by_cases ha : a = true
    · rw [if_pos ha]
      exact quadro_upsert l acc.st.periodos
    · rw [if_neg ha]
      exact ⟨[], by simp⟩

theorem quadro_fold (a : Bool) (linhas : List Linha) (acc : AcumuladorCommit) :
    ∃ ext, ((linhas.foldl (procLinhaCommit a) acc).st.periodos).map quadroPeriodo =
      (acc.st.periodos).map quadroPeriodo ++ ext := by
  induction linhas generalizing acc with
  | nil => exact ⟨[], by simp⟩
  | cons l t ih =>
    simp only [List.foldl_cons]
    obtain ⟨e1, h1⟩ := quadro_procLinhaCommit a acc l
    obtain ⟨e2, h2⟩ := ih (procLinhaCommit a acc l)
    exact ⟨e1 ++ e2, by rw [h2, h1, List.append_assoc]⟩

theorem quadro_confirmar (linhas : List Linha) (a r : Bool) (st : Estado) :
    ∃ ext, ((confirmar_importacao linhas a r st).periodos).map quadroPeriodo =
      (st.periodos).map quadroPeriodo ++ ext := by
  unfold confirmar_importacao
  exact quadro_fold a linhas ⟨st, 0, 0⟩

/-- Claim C2: across any sequence of import commits, every acquisition
period present beforehand keeps its `(employee, period-start)` key and its
entire installment list — day counts and notes included — unchanged: only
the ERP-sourced fields of a period can be overwritten by an import, and
the pre-existing period rows survive in place (imports only append new
rows after them). -/
theorem c2_parcelas_sobrevivem_reimportacoes
    (imps : List (List Linha × Bool × Bool)) (st : Estado) :
    st.periodos.length ≤ (aplicaImportacoes imps st).periodos.length ∧
    ((aplicaImportacoes imps st).periodos.map quadroPeriodo).take st.periodos.length =
      st.periodos.map quadroPeriodo := by
  have h : ∃ ext, ((aplicaImportacoes imps st).periodos).map quadroPeriodo =
      (st.periodos).map quadroPeriodo ++ ext := by
    unfold aplicaImportacoes
    induction imps generalizing st with
    | nil => exact ⟨[], by simp⟩
    | cons imp t ih =>
      simp only [List.foldl_cons]
      obtain ⟨e1, h1⟩ := quadro_confirmar imp.1 imp.2.1 imp.2.2 st
      obtain ⟨e2, h2⟩ := ih (confirmar_importacao imp.1 imp.2.1 imp.2.2 st)
      exact ⟨e1 ++ e2, by rw [h2, h1, List.append_assoc]⟩
  obtain ⟨ext, hext⟩ := h
  constructor
  · have := congrArg List.length hext
    simp only [List.length_map, List.length_append] at this
    omega
  · rw [hext]
    have : (st.periodos.map quadroPeriodo).length = st.periodos.length :=
      List.length_map _ _
    rw [← this, List.take_left]

/-- The numeric/date content of an employee row the import may never
change: its code and its hire date (`data_admissao` is set only at
creation, never on update). -/
def resumoColab (c : Colaborador) : String × Option DataCivil :=
  (c.codigo, c.dataAdmissao)

/-- The `(colaborador, inicio_aquisitivo)` key of a period row. -/
def chavePeriodo (p : Periodo) : String × DataCivil :=
  (p.codigo, p.inicioAquisitivo)

/-- The `(colaborador, inicio_aquisitivo)` key a batch row addresses. -/
def chaveLinha (l : Linha) : String × DataCivil :=
  (l.codigo, l.inicioAquisitivo)

def chavesPeriodos (ps : List Periodo) : List (String × DataCivil) :=
  ps.map chavePeriodo

/-- The employee code exists in the table (the `get_or_create` hit case). -/
def presenteColab (cs : List Colaborador) (cod : String) : Prop :=
  ∃ c ∈ cs, c.codigo = cod

/-- Schema invariant `unique_together = [colaborador, inicio_aquisitivo]`. -/
def SemDuplicatas (ps : List Periodo) : Prop :=
  (chavesPeriodos ps).Nodup

/-- Schema invariant: the foreign key of every period row resolves. -/
def IntegridadeReferencial (st : Estado) : Prop :=
  ∀ p ∈ st.periodos, presenteColab st.colaboradores p.codigo

theorem resumo_atualizaColab (l : Linha) (cs : List Colaborador) :
    (atualizaColab l cs).map resumoColab = cs.map resumoColab := by
  induction cs with
  | nil => rfl
  | cons c t ih =>
    unfold atualizaColab
    by_cases h : c.codigo = l.codigo
    · rw [if_pos h]
      simp [resumoColab]
    · rw [if_neg h]
      simp [ih]

theorem resumo_procLinhaCommit (a : Bool) (acc : AcumuladorCommit) (l : Linha) :
    ∃ ext, ((procLinhaCommit a acc l).st.colaboradores).map resumoColab =
      (acc.st.colaboradores).map resumoColab ++ ext := by
  unfold procLinhaCommit
  by_cases h : ∃ c ∈ acc.st.colaboradores, c.codigo = l.codigo
  · rw [if_pos h]
    exact ⟨[], by simp [resumo_atualizaColab]⟩
  · rw [if_neg h]
    by_cases ha : a = true
    · rw [if_pos ha]
      exact ⟨[resumoColab (novoColab l true)], by simp⟩
    · rw [if_neg ha]
      exact ⟨[resumoColab (novoColab l false)], by simp⟩

theorem resumo_fold (a : Bool) (linhas : List Linha) (acc : AcumuladorCommit) :
    ∃ ext, ((linhas.foldl (procLinhaCommit a) acc).st.colaboradores).map resumoColab =
      (acc.st.colaboradores).map resumoColab ++ ext := by
  induction linhas generalizing acc with
  | nil => exact ⟨[], by simp⟩
  | cons l t ih =>
    simp only [List.foldl_cons]
    obtain ⟨e1, h1⟩ := resumo_procLinhaCommit a acc l
    obtain ⟨e2, h2⟩ := ih (procLinhaCommit a acc l)
    exact ⟨e1 ++ e2, by rw [h2, h1, List.append_assoc]⟩

theorem resumo_desativa (k : List String) (cs : List Colaborador) :
    (desativaAusentes k cs).map resumoColab = cs.map resumoColab := by
  unfold desativaAusentes
  rw [List.map_map]
  refine List.map_congr_left (fun c _ => ?_)
  by_cases h : c.ativo = true ∧ c.codigo ∉ k
  · simp [h, resumoColab]
  · simp [h]

theorem resumo_confirmar (linhas : List Linha) (a r : Bool) (st : Estado) :
    ∃ ext, ((confirmar_importacao linhas a r st).colaboradores).map resumoColab =
      (st.colaboradores).map resumoColab ++ ext := by
  obtain ⟨ext, hext⟩ := resumo_fold a linhas ⟨st, 0, 0⟩
  refine ⟨ext, ?_⟩
  unfold confirmar_importacao
  by_cases hr : r = true
  · simp only [if_pos hr]
    rw [resumo_desativa]
    exact hext
  · simp only [if_neg hr]
    exact hext

theorem presenca_de_resumo {cs cs' : List Colaborador} {cod : String}
    (hext : ∃ ext, cs'.map resumoColab = cs.map resumoColab ++ ext)
    (h : presenteColab cs cod) : presenteColab cs' cod := by
  obtain ⟨ext, hext⟩ := hext
  obtain ⟨c, hc, hcod⟩ := h
  have hmem : (cod, c.dataAdmissao) ∈ cs'.map resumoColab := by
    rw [hext]
    refine List.mem_append.mpr (Or.inl ?_)
    exact List.mem_map.mpr ⟨c, hc, by simp [resumoColab, hcod]⟩
  obtain ⟨c', hc', hres⟩ := List.mem_map.mp hmem
  exact ⟨c', hc', congrArg Prod.fst hres⟩

theorem presenca_apos_proc (a : Bool) (acc : AcumuladorCommit) (l : Linha) :
    presenteColab ((procLinhaCommit a acc l).st.colaboradores) l.codigo := by
  unfold procLinhaCommit
  by_cases h : ∃ c ∈ acc.st.colaboradores, c.codigo = l.codigo
  · rw [if_pos h]
    exact presenca_de_resumo ⟨[], by simp [resumo_atualizaColab]⟩ h
  · rw [if_neg h]
    by_cases ha : a = true
    · rw [if_pos ha]
      exact ⟨novoColab l true, List.mem_append.mpr (Or.inr (List.mem_singleton.mpr rfl)), rfl⟩
    · rw [if_neg ha]
      exact ⟨novoColab l false, List.mem_append.mpr (Or.inr (List.mem_singleton.mpr rfl)), rfl⟩

theorem presenca_apos_fold (a : Bool) (linhas : List Linha) (acc : AcumuladorCommit) :
    ∀ l ∈ linhas,
      presenteColab ((linhas.foldl (procLinhaCommit a) acc).st.colaboradores) l.codigo := by
  induction linhas generalizing acc with
  | nil => intro l hl; cases hl
  | cons x t ih =>
    intro l hl
    simp only [List.foldl_cons]
    rcases List.mem_cons.mp hl with rfl | hl
    · exact presenca_de_resumo (resumo_fold a t (procLinhaCommit a acc l))
        (presenca_apos_proc a acc l)
    · exact ih (procLinhaCommit a acc x) l hl

theorem chaves_atualizaPeriodo (l : Linha) (ps : List Periodo) :
    chavesPeriodos (atualizaPeriodo l ps) = chavesPeriodos ps := by
  induction ps with
  | nil => rfl
  | cons p t ih =>
    unfold atualizaPeriodo
    by_cases h : p.codigo = l.codigo ∧ p.inicioAquisitivo = l.inicioAquisitivo
    · rw [if_pos h]
      simp only [chavesPeriodos, List.map_cons]
      refine congrArg (· :: _) ?_
      simp [chavePeriodo, escreveErp]
    · rw [if_neg h]
      simp only [chavesPeriodos, List.map_cons]
      exact congrArg _ ih

theorem chave_nova_fora (l : Linha) (ps : List Periodo)
    (h : ¬ ∃ p ∈ ps, p.codigo = l.codigo ∧ p.inicioAquisitivo = l.inicioAquisitivo) :
    chaveLinha l ∉ chavesPeriodos ps := by
  intro hmem
  obtain ⟨p, hp, hchave⟩ := List.mem_map.mp hmem
  refine h ⟨p, hp, ?_, ?_⟩
  · exact congrArg Prod.fst hchave
  · exact congrArg Prod.snd hchave

theorem nd_upsert (l : Linha) (ps : List Periodo) (hnd : SemDuplicatas ps) :
    SemDuplicatas ((upsertPeriodo l ps).1) := by
  unfold upsertPeriodo
  by_cases h : ∃ p ∈ ps, p.codigo = l.codigo ∧ p.inicioAquisitivo = l.inicioAquisitivo
  · rw [if_pos h]
    unfold SemDuplicatas
    rw [chaves_atualizaPeriodo]
    exact hnd
  · rw [if_neg h]
    unfold SemDuplicatas chavesPeriodos
    rw [List.map_append]
    refine List.Nodup.append hnd (List.nodup_singleton _) ?_
    intro k hk hk'
    rcases List.mem_singleton.mp hk' with rfl
    exact chave_nova_fora l ps h hk

theorem nd_proc (a : Bool) (acc : AcumuladorCommit) (l : Linha)
    (hnd : SemDuplicatas acc.st.periodos) :
    SemDuplicatas ((procLinhaCommit a acc l).st.periodos) := by
  unfold procLinhaCommit
  by_cases h : ∃ c ∈ acc.st.colaboradores, c.codigo = l.codigo
  · rw [if_pos h]
    exact nd_upsert l acc.st.periodos hnd
  · rw [if_neg h]
    by_cases ha : a = true
    · rw [if_pos ha]
      exact nd_upsert l acc.st.periodos hnd
    · rw [if_neg ha]
      exact hnd

theorem nd_fold (a : Bool) (linhas : List Linha) (acc : AcumuladorCommit)
    (hnd : SemDuplicatas acc.st.periodos) :
    SemDuplicatas ((linhas.foldl (procLinhaCommit a) acc).st.periodos) := by
  induction linhas generalizing acc with
  | nil => exact hnd
  | cons l t ih =>
    simp only [List.foldl_cons]
    exact ih (procLinhaCommit a acc l) (nd_proc a acc l hnd)

theorem nd_confirmar (linhas : List Linha) (a r : Bool) (st : Estado)
    (hnd : SemDuplicatas st.periodos) :
    SemDuplicatas ((confirmar_importacao linhas a r st).periodos) :=
  nd_fold a linhas ⟨st, 0, 0⟩ hnd

theorem mem_atualizaPeriodo {l : Linha} {ps : List Periodo} {q : Periodo}
    (hq : q ∈ atualizaPeriodo l ps) :
    q ∈ ps ∨ (q.codigo = l.codigo ∧ q.inicioAquisitivo = l.inicioAquisitivo) := by
  induction ps with
  | nil => cases hq
  | cons p t ih =>
    unfold atualizaPeriodo at hq
    by_cases h : p.codigo = l.codigo ∧ p.inicioAquisitivo = l.inicioAquisitivo
    · rw [if_pos h] at hq
      rcases List.mem_cons.mp hq with rfl | hq
      · exact Or.inr ⟨h.1, h.2⟩
      · exact Or.inl (List.mem_cons_of_mem p hq)
    · rw [if_neg h] at hq
      rcases List.mem_cons.mp hq with rfl | hq
      · exact Or.inl (List.mem_cons_self q t)
      · rcases ih hq with hq | hk
        · exact Or.inl (List.mem_cons_of_mem p hq)
        · exact Or.inr hk

theorem mem_upsert {l : Linha} {ps : List Periodo} {q : Periodo}
    (hq : q ∈ (upsertPeriodo l ps).1) :
    q ∈ ps ∨ (q.codigo = l.codigo ∧ q.inicioAquisitivo = l.inicioAquisitivo) := by
  unfold upsertPeriodo at hq
  by_cases h : ∃ p ∈ ps, p.codigo = l.codigo ∧ p.inicioAquisitivo = l.inicioAquisitivo
  · rw [if_pos h] at hq
    exact mem_atualizaPeriodo hq
  · rw [if_neg h] at hq
    rcases List.mem_append.mp hq with hq | hq
    · exact Or.inl hq
    · rcases List.mem_singleton.mp hq with rfl
      exact Or.inr ⟨rfl, rfl⟩

theorem ri_proc (a : Bool) (acc : AcumuladorCommit) (l : Linha)
    (hri : IntegridadeReferencial acc.st) :
    IntegridadeReferencial (procLinhaCommit a acc l).st := by
  intro p hp
  have hres := resumo_procLinhaCommit a acc l
  have hpres : presenteColab ((procLinhaCommit a acc l).st.colaboradores) l.codigo :=
    presenca_apos_proc a acc l
  revert hp
  unfold procLinhaCommit at hpres hres ⊢
  by_cases h : ∃ c ∈ acc.st.colaboradores, c.codigo = l.codigo
  · rw [if_pos h] at hpres hres ⊢
    intro hp
    rcases mem_upsert hp with hp | hk
    · exact presenca_de_resumo hres (hri p hp)
    · rw [hk.1]
      exact hpres
  · rw [if_neg h] at hpres hres ⊢
    by_cases ha : a = true
    · rw [if_pos ha] at hpres hres ⊢
      intro hp
      rcases mem_upsert hp with hp | hk
      · exact presenca_de_resumo hres (hri p hp)
      · rw [hk.1]
        exact hpres
    · rw [if_neg ha] at hpres hres ⊢
      intro hp
      exact presenca_de_resumo hres (hri p hp)

theorem ri_fold (a : Bool) (linhas : List Linha) (acc : AcumuladorCommit)
    (hri : IntegridadeReferencial acc.st) :
    IntegridadeReferencial ((linhas.foldl (procLinhaCommit a) acc).st) := by
  induction linhas generalizing acc with
  | nil => exact hri
  | cons l t ih =>
    simp only [List.foldl_cons]
    exact ih (procLinhaCommit a acc l) (ri_proc a acc l hri)

theorem ri_confirmar (linhas : List Linha) (a r : Bool) (st : Estado)
    (hri : IntegridadeReferencial st) :
    IntegridadeReferencial (confirmar_importacao linhas a r st) := by
  intro p hp
  have hf := ri_fold a linhas ⟨st, 0, 0⟩ hri
  have hp' : p ∈ ((linhas.foldl (procLinhaCommit a) ⟨st, 0, 0⟩).st.periodos) := hp
  have hpres := hf p hp'
  refine presenca_de_resumo ⟨?_, ?_⟩ hpres
  · exact []
  · show ((confirmar_importacao linhas a r st).colaboradores).map resumoColab = _
    unfold confirmar_importacao
    by_cases hr : r = true
    · simp only [if_pos hr]
      rw [resumo_desativa]
      simp
    · simp only [if_neg hr]
      simp

theorem frame_por_chave (a : Bool) (L : List Linha) (acc : AcumuladorCommit)
    (p : Periodo)
    (hp : p ∈ ((L.foldl (procLinhaCommit a) acc).st.periodos))
    (hL : ∀ r ∈ L, ¬ (r.codigo = p.codigo ∧ r.inicioAquisitivo = p.inicioAquisitivo)) :
    p ∈ acc.st.periodos := by
  induction L generalizing acc with
  | nil => exact hp
  | cons l t ih =>
    simp only [List.foldl_cons] at hp
    have hp' : p ∈ ((procLinhaCommit a acc l).st.periodos) :=
      ih (procLinhaCommit a acc l) hp (fun r hr => hL r (List.mem_cons_of_mem l hr))
    have hnl : ¬ (l.codigo = p.codigo ∧ l.inicioAquisitivo = p.inicioAquisitivo) :=
      hL l (List.mem_cons_self l t)
    revert hp'
    unfold procLinhaCommit
    by_cases h : ∃ c ∈ acc.st.colaboradores, c.codigo = l.codigo
    · rw [if_pos h]
      intro hp'
      rcases mem_upsert hp' with hp' | hk
      · exact hp'
      · exact absurd ⟨hk.1.symm, hk.2.symm⟩ hnl
    · rw [if_neg h]
      by_cases ha : a = true
      · rw [if_pos ha]
        intro hp'
        rcases mem_upsert hp' with hp' | hk
        · exact hp'
        · exact absurd ⟨hk.1.symm, hk.2.symm⟩ hnl
      · rw [if_neg ha]
        intro hp'
        exact hp'

theorem escreve_escreve (p : Periodo) (l l' : Linha) :
    escreveErp (escreveErp p l) l' = escreveErp p l' := rfl

theorem escreve_novo (l : Linha) : escreveErp (novoPeriodo l) l = novoPeriodo l := rfl

theorem escrita_atualiza (l : Linha) (ps : List Periodo) (hnd : SemDuplicatas ps) :
    ∀ q ∈ atualizaPeriodo l ps,
      (q.codigo = l.codigo ∧ q.inicioAquisitivo = l.inicioAquisitivo) →
      escreveErp q l = q := by
  induction ps with
  | nil => intro q hq; cases hq
  | cons p t ih =>
    have hnd' : SemDuplicatas t := by
      unfold SemDuplicatas chavesPeriodos at hnd ⊢
      exact (List.nodup_cons.mp hnd).2
    have hout : chavePeriodo p ∉ chavesPeriodos t := by
      unfold SemDuplicatas chavesPeriodos at hnd
      exact (List.nodup_cons.mp hnd).1
    intro q hq hk
    unfold atualizaPeriodo at hq
    by_cases h : p.codigo = l.codigo ∧ p.inicioAquisitivo = l.inicioAquisitivo
    · rw [if_pos h] at hq
      rcases List.mem_cons.mp hq with rfl | hq
      · exact escreve_escreve p l l
      · exfalso
        refine hout ?_
        have : chavePeriodo q = chavePeriodo p := by
          unfold chavePeriodo
          rw [hk.1, hk.2, h.1, h.2]
        rw [← this]
        exact List.mem_map.mpr ⟨q, hq, rfl⟩
    · rw [if_neg h] at hq
      rcases List.mem_cons.mp hq with rfl | hq
      · exact absurd ⟨hk.1, hk.2⟩ h
      · exact ih hnd' q hq hk

theorem escrita_upsert (l : Linha) (ps : List Periodo) (hnd : SemDuplicatas ps) :
    ∀ q ∈ (upsertPeriodo l ps).1,
      (q.codigo = l.codigo ∧ q.inicioAquisitivo = l.inicioAquisitivo) →
      escreveErp q l = q := by
  unfold upsertPeriodo
  by_cases h : ∃ p ∈ ps, p.codigo = l.codigo ∧ p.inicioAquisitivo = l.inicioAquisitivo
  · rw [if_pos h]
    exact escrita_atualiza l ps hnd
  · rw [if_neg h]
    intro q hq hk
    rcases List.mem_append.mp hq with hq | hq
    · exact absurd ⟨q, hq, hk⟩ h
    · rcases List.mem_singleton.mp hq with rfl
      exact escreve_novo l

/-- The LAST batch row addressing a given `(employee, period-start)` key:
the final writer of that period's ERP fields within one commit. -/
def ultimaLinhaChave : List Linha → String × DataCivil → Option Linha
  | [], _ => none
  | l :: t, k =>
    match ultimaLinhaChave t k with
    | some r => some r
    | none => if chaveLinha l = k then some l else none

theorem ultima_none_iff (L : List Linha) (k : String × DataCivil) :
    ultimaLinhaChave L k = none ↔ ∀ r ∈ L, ¬ chaveLinha r = k := by
  induction L with
  | nil => simp [ultimaLinhaChave]
  | cons l t ih =>
    unfold ultimaLinhaChave
    rcases ht : ultimaLinhaChave t k with _ | r
    · constructor
      · intro h r hr
        rcases List.mem_cons.mp hr with rfl | hr
        · intro hk
          rw [if_pos hk] at h
          cases h
        · exact (ih.mp ht) r hr
      · intro h
        rw [if_neg (h l (List.mem_cons_self l t))]
    · constructor
      · intro h
        cases h
      · intro h
        exfalso
        have := ih.mpr (fun r hr => h r (List.mem_cons_of_mem l hr))
        rw [this] at ht
        cases ht

/-- A table of periods is settled with respect to a batch when every period
whose key is addressed by the batch already holds the last writer's ERP
values (so re-writing them is the identity). -/
def Assentado (linhas : List Linha) (ps : List Periodo) : Prop :=
  ∀ p ∈ ps, ∀ l, ultimaLinhaChave linhas (chavePeriodo p) = some l →
    escreveErp p l = p

theorem assentado_fold (a : Bool) (L : List Linha) (acc : AcumuladorCommit)
    (hnd : SemDuplicatas acc.st.periodos) (hri : IntegridadeReferencial acc.st) :
    Assentado L ((L.foldl (procLinhaCommit a) acc).st.periodos) := by
  induction L generalizing acc with
  | nil =>
    intro p _ l hl
    cases hl
  | cons l t ih =>
    intro p hp lh hlh
    simp only [List.foldl_cons] at hp
    have hnd' : SemDuplicatas (procLinhaCommit a acc l).st.periodos := nd_proc a acc l hnd
    have hri' : IntegridadeReferencial (procLinhaCommit a acc l).st := ri_proc a acc l hri
    unfold ultimaLinhaChave at hlh
    rcases ht : ultimaLinhaChave t (chavePeriodo p) with _ | r
    · rw [ht] at hlh
      simp only [] at hlh
      by_cases hk : chaveLinha l = chavePeriodo p
      · rw [if_pos hk] at hlh
        have hlhl : lh = l := (Option.some.injEq _ _).mp hlh.symm
        rw [hlhl]
        have hrest : ∀ r ∈ t, ¬ chaveLinha r = chavePeriodo p := (ultima_none_iff t _).mp ht
        have hpmem : p ∈ (procLinhaCommit a acc l).st.periodos := by
          refine frame_por_chave a t (procLinhaCommit a acc l) p hp ?_
          intro r hr hcomp
          exact hrest r hr (by unfold chaveLinha chavePeriodo; rw [hcomp.1, hcomp.2])
        have hkc : p.codigo = l.codigo ∧ p.inicioAquisitivo = l.inicioAquisitivo :=
          ⟨(congrArg Prod.fst hk).symm, (congrArg Prod.snd hk).symm⟩
        revert hpmem
        unfold procLinhaCommit
        by_cases h : ∃ c ∈ acc.st.colaboradores, c.codigo = l.codigo
        · rw [if_pos h]
          intro hpmem
          exact escrita_upsert l acc.st.periodos hnd p hpmem hkc
        · rw [if_neg h]
          by_cases ha : a = true
          · rw [if_pos ha]
            intro hpmem
            exact escrita_upsert l acc.st.periodos hnd p hpmem hkc
          · rw [if_neg ha]
            intro hpmem
            exfalso
            have hpres := hri p hpmem
            obtain ⟨c, hc, hcod⟩ := hpres
            exact h ⟨c, hc, by rw [hcod, hkc.1]⟩
      · rw [if_neg hk] at hlh
        cases hlh
    · rw [ht] at hlh
      simp only [] at hlh
      have hlhr : lh = r := (Option.some.injEq _ _).mp hlh.symm
      subst hlhr
      exact ih (procLinhaCommit a acc l) hnd' hri' p hp lh ht

/-- The net effect of one commit on a pre-existing period row: overwrite
with the batch's last writer for its key, if any. -/
def funUltima (L : List Linha) (p : Periodo) : Periodo :=
  match ultimaLinhaChave L (chavePeriodo p) with
  | none => p
  | some l => escreveErp p l

theorem chave_escreveErp (p : Periodo) (l : Linha) :
    chavePeriodo (escreveErp p l) = chavePeriodo p := rfl

theorem funUltima_nil (p : Periodo) : funUltima [] p = p := rfl

theorem funUltima_comp (l : Linha) (rest : List Linha) (p : Periodo) :
    funUltima rest
      (if chavePeriodo p = chaveLinha l then escreveErp p l else p) =
      funUltima (l :: rest) p := by
  by_cases hk : chavePeriodo p = chaveLinha l
  · rw [if_pos hk]
    unfold funUltima
    rw [chave_escreveErp]
    show (match ultimaLinhaChave rest (chavePeriodo p) with
      | none => escreveErp p l
      | some r => escreveErp (escreveErp p l) r) =
      (match ultimaLinhaChave (l :: rest) (chavePeriodo p) with
      | none => p
      | some r => escreveErp p r)
    have hcons : ultimaLinhaChave (l :: rest) (chavePeriodo p) =
        match ultimaLinhaChave rest (chavePeriodo p) with
        | some r => some r
        | none => if chaveLinha l = chavePeriodo p then some l else none := rfl
    rcases ht : ultimaLinhaChave rest (chavePeriodo p) with _ | r
    · rw [hcons, ht, if_pos hk.symm]
    · rw [hcons, ht]
      exact escreve_escreve p l r
  · rw [if_neg hk]
    unfold funUltima
    have hcons : ultimaLinhaChave (l :: rest) (chavePeriodo p) =
        match ultimaLinhaChave rest (chavePeriodo p) with
        | some r => some r
        | none => if chaveLinha l = chavePeriodo p then some l else none := rfl
    rcases ht : ultimaLinhaChave rest (chavePeriodo p) with _ | r
    · rw [hcons, ht, if_neg (fun h => hk h.symm)]
    · rw [hcons, ht]

theorem atualiza_eq_map (l : Linha) (ps : List Periodo) (hnd : SemDuplicatas ps) :
    atualizaPeriodo l ps =
      ps.map (fun p => if chavePeriodo p = chaveLinha l then escreveErp p l else p) := by
  induction ps with
  | nil => rfl
  | cons p t ih =>
    have hnd' : SemDuplicatas t := by
      unfold SemDuplicatas chavesPeriodos at hnd ⊢
      exact (List.nodup_cons.mp hnd).2
    have hout : chavePeriodo p ∉ chavesPeriodos t := by
      unfold SemDuplicatas chavesPeriodos at hnd
      exact (List.nodup_cons.mp hnd).1
    unfold atualizaPeriodo
    by_cases h : p.codigo = l.codigo ∧ p.inicioAquisitivo = l.inicioAquisitivo
    · have hk : chavePeriodo p = chaveLinha l := by
        unfold chavePeriodo chaveLinha
        rw [h.1, h.2]
      rw [if_pos h]
      simp only [List.map_cons, if_pos hk]
      refine congrArg _ ?_
      symm
      refine (List.map_congr_left (fun q hq => ?_)).trans (List.map_id t)
      have hkq : ¬ chavePeriodo q = chaveLinha l := by
        intro hq'
        refine hout ?_
        have hqp : chavePeriodo q = chavePeriodo p := hq'.trans hk.symm
        rw [← hqp]
        exact List.mem_map.mpr ⟨q, hq, rfl⟩
      rw [if_neg hkq]
      rfl
    · have hk : ¬ chavePeriodo p = chaveLinha l := by
        intro hk'
        exact h ⟨congrArg Prod.fst hk', congrArg Prod.snd hk'⟩
      rw [if_neg h]
      simp only [List.map_cons, if_neg hk]
      exact congrArg _ (ih hnd')

theorem run2_prefixo (a : Bool) (L : List Linha) (acc : AcumuladorCommit)
    (hpres : ∀ l ∈ L, presenteColab acc.st.colaboradores l.codigo)
    (hnd : SemDuplicatas acc.st.periodos) :
    ∃ ext, ((L.foldl (procLinhaCommit a) acc).st.periodos) =
      acc.st.periodos.map (funUltima L) ++ ext := by
  induction L generalizing acc with
  | nil =>
    refine ⟨[], ?_⟩
    simp only [List.foldl_nil, List.append_nil]
    symm
    exact (List.map_congr_left (fun p _ => funUltima_nil p)).trans (List.map_id _)
  | cons l t ih =>
    have hfound : ∃ c ∈ acc.st.colaboradores, c.codigo = l.codigo :=
      hpres l (List.mem_cons_self l t)
    simp only [List.foldl_cons]
    have hpres' : ∀ r ∈ t,
        presenteColab (procLinhaCommit a acc l).st.colaboradores r.codigo :=
      fun r hr => presenca_de_resumo (resumo_procLinhaCommit a acc l)
        (hpres r (List.mem_cons_of_mem l hr))
    have hnd' : SemDuplicatas (procLinhaCommit a acc l).st.periodos := nd_proc a acc l hnd
    obtain ⟨ext, hext⟩ := ih (procLinhaCommit a acc l) hpres' hnd'
    have hstepper : (procLinhaCommit a acc l).st.periodos =
        (upsertPeriodo l acc.st.periodos).1 := by
      unfold procLinhaCommit
      rw [if_pos hfound]
    rw [hext, hstepper]
    unfold upsertPeriodo
    by_cases h : ∃ p ∈ acc.st.periodos,
        p.codigo = l.codigo ∧ p.inicioAquisitivo = l.inicioAquisitivo
    · rw [if_pos h]
      refine ⟨ext, ?_⟩
      rw [atualiza_eq_map l acc.st.periodos hnd, List.map_map]
      refine congrArg (· ++ ext) ?_
      refine List.map_congr_left (fun p _ => ?_)
      exact funUltima_comp l t p
    · rw [if_neg h]
      refine ⟨funUltima t (novoPeriodo l) :: ext, ?_⟩
      rw [List.map_append]
      have hps : (acc.st.periodos).map (funUltima t) =
          (acc.st.periodos).map (funUltima (l :: t)) := by
        refine List.map_congr_left (fun p hp => ?_)
        have hk : ¬ chavePeriodo p = chaveLinha l := by
          intro hk'
          exact h ⟨p, hp, congrArg Prod.fst hk', congrArg Prod.snd hk'⟩
        have hcomp := funUltima_comp l t p
        rw [if_neg hk] at hcomp
        exact hcomp
      rw [hps]
      simp

theorem assentado_map_id (L : List Linha) (ps : List Periodo)
    (h : Assentado L ps) : ps.map (funUltima L) = ps := by
  refine (List.map_congr_left (fun p hp => ?_)).trans (List.map_id _)
  unfold funUltima
  rcases ht : ultimaLinhaChave L (chavePeriodo p) with _ | l
  · rfl
  · exact h p hp l ht

theorem periodos_confirmar (linhas : List Linha) (a r : Bool) (st : Estado) :
    (confirmar_importacao linhas a r st).periodos =
      ((linhas.foldl (procLinhaCommit a) ⟨st, 0, 0⟩).st.periodos) := rfl

theorem resumo_confirmar_fold (linhas : List Linha) (a r : Bool) (st : Estado) :
    ((confirmar_importacao linhas a r st).colaboradores).map resumoColab =
      (((linhas.foldl (procLinhaCommit a) ⟨st, 0, 0⟩).st.colaboradores)).map resumoColab := by
  unfold confirmar_importacao
  by_cases hr : r = true
  · simp only [if_pos hr]
    rw [resumo_desativa]
  · simp only [if_neg hr]

theorem presenca_confirmar (linhas : List Linha) (a r : Bool) (st : Estado) :
    ∀ l ∈ linhas, presenteColab (confirmar_importacao linhas a r st).colaboradores l.codigo := by
  intro l hl
  refine presenca_de_resumo ⟨[], ?_⟩ (presenca_apos_fold a linhas ⟨st, 0, 0⟩ l hl)
  rw [resumo_confirmar_fold]
  simp

/-- Claim C1: committing an identical row batch a second time with the same
operator flags is idempotent on the numeric/date content: every acquisition
period present after the first run survives the second run entirely
unchanged (all its date and decimal fields are overwritten with equal
values, its key and installments untouched — the second-run table extends
the first-run table), the `(employee, period-start)` keys remain free of
duplicates, and no employee's code or hire date (the only employee
date field; updates never touch `data_admissao`) changes.  The hypotheses
are the storage schema's own invariants: unique `(colaborador, inicio)`
keys and resolving foreign keys. -/
theorem c1_commit_idempotente (linhas : List Linha) (a r : Bool)
    (st0 st1 st2 : Estado)
    (hnd : SemDuplicatas st0.periodos)
    (hri : IntegridadeReferencial st0)
    (h1 : st1 = confirmar_importacao linhas a r st0)
    (h2 : st2 = confirmar_importacao linhas a r st1) :
    st2.periodos.take st1.periodos.length = st1.periodos ∧
    SemDuplicatas st2.periodos ∧
    (st2.colaboradores.map resumoColab).take st1.colaboradores.length =
      st1.colaboradores.map resumoColab := by
  subst h1 h2
  have hnd1 : SemDuplicatas (confirmar_importacao linhas a r st0).periodos :=
    nd_confirmar linhas a r st0 hnd
  have hassent : Assentado linhas (confirmar_importacao linhas a r st0).periodos := by
    rw [periodos_confirmar]
    exact assentado_fold a linhas ⟨st0, 0, 0⟩ hnd hri
  have hpres1 := presenca_confirmar linhas a r st0
  obtain ⟨ext, hext⟩ := run2_prefixo a linhas
    ⟨confirmar_importacao linhas a r st0, 0, 0⟩ hpres1 hnd1
  have hper2 : (confirmar_importacao linhas a r (confirmar_importacao linhas a r st0)).periodos =
      (confirmar_importacao linhas a r st0).periodos ++ ext := by
    rw [periodos_confirmar]
    rw [hext]
    rw [assentado_map_id linhas _ hassent]
  refine ⟨?_, ?_, ?_⟩
  · rw [hper2, List.take_left]
  · exact nd_confirmar linhas a r _ hnd1
  · obtain ⟨ext2, hext2⟩ := resumo_confirmar linhas a r (confirmar_importacao linhas a r st0)
    rw [hext2]
    have hlen : ((confirmar_importacao linhas a r st0).colaboradores.map resumoColab).length =
        (confirmar_importacao linhas a r st0).colaboradores.length :=
      List.length_map _ _
    rw [← hlen, List.take_left]

/-- Witness for C1: one-row batch committed twice into an empty store. -/
theorem c1_commit_idempotente_witness :
    (confirmar_importacao [linhaTeste "5" "EVA"] true false
        (confirmar_importacao [linhaTeste "5" "EVA"] true false ⟨[], [], []⟩)).periodos.take
        (confirmar_importacao [linhaTeste "5" "EVA"] true false ⟨[], [], []⟩).periodos.length =
      (confirmar_importacao [linhaTeste "5" "EVA"] true false ⟨[], [], []⟩).periodos ∧
    SemDuplicatas (confirmar_importacao [linhaTeste "5" "EVA"] true false
        (confirmar_importacao [linhaTeste "5" "EVA"] true false ⟨[], [], []⟩)).periodos ∧
    ((confirmar_importacao [linhaTeste "5" "EVA"] true false
        (confirmar_importacao [linhaTeste "5" "EVA"] true false ⟨[], [], []⟩)).colaboradores.map
          resumoColab).take
        (confirmar_importacao [linhaTeste "5" "EVA"] true false ⟨[], [], []⟩).colaboradores.length =
      (confirmar_importacao [linhaTeste "5" "EVA"] true false ⟨[], [], []⟩).colaboradores.map
        resumoColab :=
  c1_commit_idempotente [linhaTeste "5" "EVA"] true false ⟨[], [], []⟩ _ _
    (by simp [SemDuplicatas, chavesPeriodos])
    (by intro p hp; cases hp) rfl rfl
